import Mathlib

/-!
Verification of the ivory-operator reconciliation core.

This development shallowly embeds the parts of the ivory-operator source that
the verified properties are about:

* the pgBackRest configuration synthesis for the IvorySQL-instance role and
  the dedicated repository-host role (`populatePGInstanceConfigurationMap`,
  `populateRepoHostConfigurationMap`, `getExternalRepoConfigs`, `serverConfig`
  from the pgbackrest package),
* the `huge_pages` parameter selection (`SetHugePages`, `hugePagesRequested`
  from the ivory package),
* the change-aware monitoring-exporter reconciliation
  (`reconcilePGMonitorExporter` from the postgrescluster package),
* the IvyUpgrade controller's `Reconcile` state machine and its
  status-condition helpers (package ivyupgrade).

Go maps that the source iterates are embedded as association lists whose order
is part of the input; Kubernetes API effects (create/patch/delete and pod
exec) are collected as explicit effect lists instead of performed.
-/

namespace IvoryOperator

/-! ## INI configuration model

The source stores pgBackRest options in an `iniMultiSet` (section contents)
and an `iniSectionSet` (named sections) and serializes them to the INI-like
text format. -/

/-- Modelled from the spec: the source's `iniMultiSet` type is not among the
given files.  Per the spec's `ConfigSectionSet` it is an ordered multi-valued
key/value list: insertion order of keys is preserved, keys may repeat their
values. -/
abbrev IniMultiSet := List (String × List String)

/-- Modelled from the spec: `iniMultiSet.Set` replaces any values associated
with the key by the single value (`Set` semantics: last write replaces),
keeping the key's original position; a new key is appended at the end. -/
def iniSet (ms : IniMultiSet) (k v : String) : IniMultiSet :=
  match ms with
  | [] => [(k, [v])]
  | (k', vs) :: rest =>
      if k' = k then (k, [v]) :: rest else (k', vs) :: iniSet rest k v

/-- Modelled from the spec: `iniMultiSet.Add` associates an additional value
with the key, appending it to any values already associated with it. -/
def iniAdd (ms : IniMultiSet) (k v : String) : IniMultiSet :=
  match ms with
  | [] => [(k, [v])]
  | (k', vs) :: rest =>
      if k' = k then (k, vs ++ [v]) :: rest else (k', vs) :: iniAdd rest k v

/-- Look up the values currently associated with a key. -/
def iniLookup (ms : IniMultiSet) (k : String) : Option (List String) :=
  match ms with
  | [] => none
  | (k', vs) :: rest => if k' = k then some vs else iniLookup rest k

/-- Modelled from the spec: an ordered mapping of section name to section
contents (the source's `iniSectionSet`). -/
abbrev IniSectionSet := List (String × IniMultiSet)

/-- Serialize one section body: every `key = value` line in order. -/
def iniMultiSetString (ms : IniMultiSet) : String :=
  String.join (ms.map fun kv =>
    String.join (kv.2.map fun v => kv.1 ++ " = " ++ v ++ "\n"))

/-- Modelled from the spec: serialization of a section set in its declared
order, each section introduced by a `[name]` header line. -/
def iniSectionSetString (s : IniSectionSet) : String :=
  String.join (s.map fun sec => "\n[" ++ sec.1 ++ "]\n" ++ iniMultiSetString sec.2)

/-- Look up a section by name. -/
def sectionLookup (s : IniSectionSet) (name : String) : Option IniMultiSet :=
  match s with
  | [] => none
  | (n, ms) :: rest => if n = name then some ms else sectionLookup rest name

/-! ## Decimal rendering

`fmt.Sprintf("pg%d-…", i+1)` renders the host index in decimal; this is the
standard base-10 rendering (no leading zeros), defined here explicitly so
its characters can be reasoned about. -/

/-- The decimal digit characters of `n`, most significant first. -/
def decimalChars (n : Nat) : List Char :=
  if _h : n < 10 then [Nat.digitChar n]
  else decimalChars (n / 10) ++ [Nat.digitChar (n % 10)]
  decreasing_by
    exact Nat.div_lt_self (by omega) (by omega)

/-- Decimal rendering of a natural number, as produced by `%d`. -/
def decimalRepr (n : Nat) : String := ⟨decimalChars n⟩

/-! ## pgBackRest repository configuration (package pgbackrest) -/

/-- `defaultRepo1Path` stores the default pgBackRest repo path. -/
def defaultRepo1Path : String := "/pgbackrest/"

/-- `DefaultStanzaName` is the name of the default pgBackRest stanza. -/
def defaultStanzaName : String := "db"

/-- Modelled from the spec: `naming.PGBackRestPGDataLogPath`, the log path on
the pgData volume, is declared in the repository's naming package which is not
among the given files; only its use as an opaque path constant matters here. -/
def pgBackRestPGDataLogPath : String := "/pgdata/pgbackrest/log"

/-- Modelled from the spec: `naming.PGBackRestRepoLogPath` is a format string
turning a repository name into the host-side log path derived from that
repository; the naming package is not among the given files. -/
def pgBackRestRepoLogPath (repoName : String) : String :=
  "/pgbackrest/" ++ repoName ++ "/log"

/-- Modelled from the spec: `naming.KubernetesClusterDomain` (naming package
not among the given files); an opaque DNS suffix. -/
def kubernetesClusterDomain : String := "cluster.local."

/-- Modelled from the spec: TLS certificate path constants declared elsewhere
in the pgbackrest package (not among the given files); opaque path values. -/
def certAuthorityAbsolutePath : String := "/etc/pgbackrest/conf.d/~ivory-operator/tls-ca.crt"

/-- Modelled from the spec: client certificate path constant. -/
def certClientAbsolutePath : String := "/etc/pgbackrest/conf.d/~ivory-operator/client-tls.crt"

/-- Modelled from the spec: client private key path constant. -/
def certClientPrivateKeyAbsolutePath : String := "/etc/pgbackrest/conf.d/~ivory-operator/client-tls.key"

/-- Modelled from the spec: server certificate path constant. -/
def certServerAbsolutePath : String := "/etc/pgbackrest/server/server-tls.crt"

/-- Modelled from the spec: server private key path constant. -/
def certServerPrivateKeyAbsolutePath : String := "/etc/pgbackrest/server/server-tls.key"

/-- Modelled from the spec: `ivory.SocketDirectory` (ivory package file not
among the given files); an opaque socket directory path. -/
def socketDirectory : String := "/tmp/ivory"

/-- Azure-backed repository settings (`repo.Azure`). -/
structure RepoAzure where
  container : String
  deriving DecidableEq, Repr

/-- GCS-backed repository settings (`repo.GCS`). -/
structure RepoGCS where
  bucket : String
  deriving DecidableEq, Repr

/-- S3-backed repository settings (`repo.S3`). -/
structure RepoS3 where
  bucket : String
  endpoint : String
  region : String
  deriving DecidableEq, Repr

/-- A `v1beta1.PGBackRestRepo`: a named backup repository.  `volume` embeds
`repo.Volume != nil` (the volume's contents are never read by the
configuration synthesis). -/
structure PGBackRestRepo where
  name : String
  volume : Bool
  azure : Option RepoAzure := none
  gcs : Option RepoGCS := none
  s3 : Option RepoS3 := none
  deriving DecidableEq, Repr

/-- `getExternalRepoConfigs` returns the configuration settings for an
external (cloud) pgBackRest repository.  The source builds a Go map; the
association list here carries the source's insertion order. -/
def getExternalRepoConfigs (repo : PGBackRestRepo) : List (String × String) :=
  match repo.azure with
  | some az => [(repo.name ++ "-type", "azure"), (repo.name ++ "-azure-container", az.container)]
  | none =>
    match repo.gcs with
    | some g => [(repo.name ++ "-type", "gcs"), (repo.name ++ "-gcs-bucket", g.bucket)]
    | none =>
      match repo.s3 with
      | some s => [(repo.name ++ "-type", "s3"), (repo.name ++ "-s3-bucket", s.bucket),
          (repo.name ++ "-s3-endpoint", s.endpoint), (repo.name ++ "-s3-region", s.region)]
      | none => []

/-- Fold a list of key/value pairs into a section with `Set` semantics
(`for option, val := range m { section.Set(option, val) }`). -/
def iniSetAll (ms : IniMultiSet) (kvs : List (String × String)) : IniMultiSet :=
  kvs.foldl (fun g kv => iniSet g kv.1 kv.2) ms

/-- One step of the instance-role repository loop body. -/
def instanceRepoStep (repoHostName repoHostFQDN : String) (g : IniMultiSet)
    (repo : PGBackRestRepo) : IniMultiSet :=
  let g := iniSet g (repo.name ++ "-path") (defaultRepo1Path ++ repo.name)
  let g := if repo.volume then g else iniSetAll g (getExternalRepoConfigs repo)
  if repoHostName ≠ "" ∧ repo.volume then
    let g := iniSet g (repo.name ++ "-host") repoHostFQDN
    let g := iniSet g (repo.name ++ "-host-type") "tls"
    let g := iniSet g (repo.name ++ "-host-ca-file") certAuthorityAbsolutePath
    let g := iniSet g (repo.name ++ "-host-cert-file") certClientAbsolutePath
    let g := iniSet g (repo.name ++ "-host-key-file") certClientPrivateKeyAbsolutePath
    iniSet g (repo.name ++ "-host-user") "ivory"
  else g

/-- `populatePGInstanceConfigurationMap` returns options representing the
pgBackRest configuration for an IvorySQL instance. -/
def populatePGInstanceConfigurationMap (serviceName serviceNamespace repoHostName pgdataDir : String)
    (pgPort : Int) (repos : List PGBackRestRepo)
    (globalConfig : List (String × String)) : IniSectionSet :=
  let repoHostFQDN := repoHostName ++ "-0." ++ serviceName ++ "." ++ serviceNamespace ++ ".svc." ++
    kubernetesClusterDomain
  let global : IniMultiSet := iniSet [] "log-path" pgBackRestPGDataLogPath
  let global := repos.foldl (instanceRepoStep repoHostName repoHostFQDN) global
  let global := iniSetAll global globalConfig
  let stanza : IniMultiSet := iniSet [] "pg1-path" pgdataDir
  let stanza := iniSet stanza "pg1-port" (toString pgPort)
  let stanza := iniSet stanza "pg1-socket-path" socketDirectory
  [("global", global), (defaultStanzaName, stanza)]

/-- One step of the repo-host-role repository loop body; the `Bool` component
is the `pgBackRestLogPathSet` flag. -/
def repoHostRepoStep (st : IniMultiSet × Bool) (repo : PGBackRestRepo) : IniMultiSet × Bool :=
  let g := iniSet st.1 (repo.name ++ "-path") (defaultRepo1Path ++ repo.name)
  let g := if repo.volume then g else iniSetAll g (getExternalRepoConfigs repo)
  if ¬st.2 ∧ repo.volume then
    (iniSet g "log-path" (pgBackRestRepoLogPath repo.name), true)
  else (g, st.2)

/-- The eight per-host stanza options written for host index `i+1` in the
repo-host role (`for i, pgHost := range pgHosts`), in `Set` order. -/
def repoHostBlockKVs (serviceName serviceNamespace pgdataDir : String) (pgPort : Int)
    (i : Nat) (pgHost : String) : List (String × String) :=
  let pgHostFQDN := pgHost ++ "-0." ++ serviceName ++ "." ++ serviceNamespace ++ ".svc." ++
    kubernetesClusterDomain
  let n := decimalRepr (i + 1)
  [("pg" ++ n ++ "-host", pgHostFQDN),
    ("pg" ++ n ++ "-host-type", "tls"),
    ("pg" ++ n ++ "-host-ca-file", certAuthorityAbsolutePath),
    ("pg" ++ n ++ "-host-cert-file", certClientAbsolutePath),
    ("pg" ++ n ++ "-host-key-file", certClientPrivateKeyAbsolutePath),
    ("pg" ++ n ++ "-path", pgdataDir),
    ("pg" ++ n ++ "-port", toString pgPort),
    ("pg" ++ n ++ "-socket-path", socketDirectory)]

/-- One iteration of the repo-host per-host loop body: the eight `Set`
calls for host index `i+1`. -/
def repoHostStanzaStep (serviceName serviceNamespace pgdataDir : String) (pgPort : Int)
    (stanza : IniMultiSet) (i : Nat) (pgHost : String) : IniMultiSet :=
  iniSetAll stanza (repoHostBlockKVs serviceName serviceNamespace pgdataDir pgPort i pgHost)

/-- The key suffixes of the eight per-host stanza options, in `Set` order. -/
def hostSuffixes : List String :=
  ["-host", "-host-type", "-host-ca-file", "-host-cert-file", "-host-key-file",
    "-path", "-port", "-socket-path"]

/-- Whether a string is empty or starts with a character below `'0'`
(in particular `'-'`); decimal digits never satisfy this. -/
def headBelow48 (s : String) : Bool :=
  s.data.head?.all fun c => decide (c.toNat < 48)

/-- The stanza contents the repo-host loop is expected to produce for hosts
numbered from `i`: for each host, in list order, the eight options with
index `i+1`, `i+2`, …. -/
def repoHostStanzaExpected (serviceName serviceNamespace pgdataDir : String) (pgPort : Int)
    (i : Nat) : List String → IniMultiSet
  | [] => []
  | h :: rest =>
      (repoHostBlockKVs serviceName serviceNamespace pgdataDir pgPort i h).map
          (fun kv => (kv.1, [kv.2])) ++
        repoHostStanzaExpected serviceName serviceNamespace pgdataDir pgPort (i + 1) rest

/-- Iterate `repoHostStanzaStep` over the host list with indices `0, 1, …`. -/
def repoHostStanzaLoop (serviceName serviceNamespace pgdataDir : String) (pgPort : Int)
    (stanza : IniMultiSet) (i : Nat) : List String → IniMultiSet
  | [] => stanza
  | h :: rest =>
      repoHostStanzaLoop serviceName serviceNamespace pgdataDir pgPort
        (repoHostStanzaStep serviceName serviceNamespace pgdataDir pgPort stanza i h)
        (i + 1) rest

/-- `populateRepoHostConfigurationMap` returns options representing the
pgBackRest configuration for a dedicated repository host. -/
def populateRepoHostConfigurationMap (serviceName serviceNamespace pgdataDir : String)
    (pgPort : Int) (pgHosts : List String) (repos : List PGBackRestRepo)
    (globalConfig : List (String × String)) : IniSectionSet :=
  let st := repos.foldl repoHostRepoStep (([] : IniMultiSet), false)
  let global := iniSetAll st.1 globalConfig
  let stanza := repoHostStanzaLoop serviceName serviceNamespace pgdataDir pgPort [] 0 pgHosts
  [("global", global), (defaultStanzaName, stanza)]

/-! ### Per-run synthesis with explicit Go-map iteration orders

`range` over a Go map yields its entries in an unspecified order that may
differ between two invocations of the same builder on the same inputs.  The
per-run builders below make that order an explicit parameter: `extOrders
repo` is the order in which this run's `range` over the map returned by
`getExternalRepoConfigs repo` yields its entries, and the `globalConfig`
association list carries this run's iteration order of the global override
map.  Instantiating `extOrders` with `getExternalRepoConfigs` itself
recovers the builders above (`populatePGInstanceConfigurationMapRun_self`,
`populateRepoHostConfigurationMapRun_self`), so a run of the source program
is any instantiation whose orders enumerate the same maps. -/

/-- One run of the instance-role repository loop body. -/
def instanceRepoStepRun (extOrders : PGBackRestRepo → List (String × String))
    (repoHostName repoHostFQDN : String) (g : IniMultiSet)
    (repo : PGBackRestRepo) : IniMultiSet :=
  let g := iniSet g (repo.name ++ "-path") (defaultRepo1Path ++ repo.name)
  let g := if repo.volume then g else iniSetAll g (extOrders repo)
  if repoHostName ≠ "" ∧ repo.volume then
    let g := iniSet g (repo.name ++ "-host") repoHostFQDN
    let g := iniSet g (repo.name ++ "-host-type") "tls"
    let g := iniSet g (repo.name ++ "-host-ca-file") certAuthorityAbsolutePath
    let g := iniSet g (repo.name ++ "-host-cert-file") certClientAbsolutePath
    let g := iniSet g (repo.name ++ "-host-key-file") certClientPrivateKeyAbsolutePath
    iniSet g (repo.name ++ "-host-user") "ivory"
  else g

/-- One run of `populatePGInstanceConfigurationMap`. -/
def populatePGInstanceConfigurationMapRun (extOrders : PGBackRestRepo → List (String × String))
    (serviceName serviceNamespace repoHostName pgdataDir : String)
    (pgPort : Int) (repos : List PGBackRestRepo)
    (globalConfig : List (String × String)) : IniSectionSet :=
  let repoHostFQDN := repoHostName ++ "-0." ++ serviceName ++ "." ++ serviceNamespace ++ ".svc." ++
    kubernetesClusterDomain
  let global : IniMultiSet := iniSet [] "log-path" pgBackRestPGDataLogPath
  let global := repos.foldl (instanceRepoStepRun extOrders repoHostName repoHostFQDN) global
  let global := iniSetAll global globalConfig
  let stanza : IniMultiSet := iniSet [] "pg1-path" pgdataDir
  let stanza := iniSet stanza "pg1-port" (toString pgPort)
  let stanza := iniSet stanza "pg1-socket-path" socketDirectory
  [("global", global), (defaultStanzaName, stanza)]

/-- One run of the repo-host repository loop body. -/
def repoHostRepoStepRun (extOrders : PGBackRestRepo → List (String × String))
    (st : IniMultiSet × Bool) (repo : PGBackRestRepo) : IniMultiSet × Bool :=
  let g := iniSet st.1 (repo.name ++ "-path") (defaultRepo1Path ++ repo.name)
  let g := if repo.volume then g else iniSetAll g (extOrders repo)
  if ¬st.2 ∧ repo.volume then
    (iniSet g "log-path" (pgBackRestRepoLogPath repo.name), true)
  else (g, st.2)

/-- One run of `populateRepoHostConfigurationMap`. -/
def populateRepoHostConfigurationMapRun (extOrders : PGBackRestRepo → List (String × String))
    (serviceName serviceNamespace pgdataDir : String)
    (pgPort : Int) (pgHosts : List String) (repos : List PGBackRestRepo)
    (globalConfig : List (String × String)) : IniSectionSet :=
  let st := repos.foldl (repoHostRepoStepRun extOrders) (([] : IniMultiSet), false)
  let global := iniSetAll st.1 globalConfig
  let stanza := repoHostStanzaLoop serviceName serviceNamespace pgdataDir pgPort [] 0 pgHosts
  [("global", global), (defaultStanzaName, stanza)]

/-- Two section bodies carry the same configuration content: every key is
associated with the same values in both (absent keys included). -/
def iniContentEq (ms1 ms2 : IniMultiSet) : Prop :=
  ∀ q, iniLookup ms1 q = iniLookup ms2 q

/-- The cluster fields read by `serverConfig`: the value of the
`naming.PGBackRestIPVersion` annotation (empty when absent) and the
client certificate common name (`clientCommonName`, declared in a pgbackrest
file not among the given files — modelled as an opaque string input). -/
structure ServerConfigCluster where
  ipVersionAnn : String
  clientCommonName : String
  deriving DecidableEq, Repr

/-- `serverConfig` returns the options needed to run the pgBackRest TLS
server for the cluster.  `strings.EqualFold(x, "ipv6")` is embedded as a
lower-cased comparison. -/
def serverConfig (cluster : ServerConfigCluster) : IniSectionSet :=
  let global : IniMultiSet := iniSet [] "tls-server-address" "0.0.0.0"
  let global := if cluster.ipVersionAnn.toLower = "ipv6"
    then iniSet global "tls-server-address" "::" else global
  let global := iniAdd global "tls-server-auth" (cluster.clientCommonName ++ "=*")
  let global := iniSet global "tls-server-ca-file" certAuthorityAbsolutePath
  let global := iniSet global "tls-server-cert-file" certServerAbsolutePath
  let global := iniSet global "tls-server-key-file" certServerPrivateKeyAbsolutePath
  let server : IniMultiSet := iniSet [] "log-level-console" "detail"
  let server := iniSet server "log-level-stderr" "error"
  let server := iniSet server "log-level-file" "off"
  let server := iniSet server "log-timestamp" "n"
  [("global", global), ("global:server", server)]

/-! ## huge_pages parameter selection (package ivory, huge_pages.go) -/

/-- `corev1.ResourceHugePagesPrefix`: prefix of huge-pages resource names. -/
def resourceHugePagesPrefix : String := "hugepages-"

/-- One instance set's resource limits: resource name to the quantity's
integer value (`resource.Quantity.Value()`), in map-iteration order. -/
structure InstanceSetSpec where
  limits : List (String × Int)
  deriving DecidableEq, Repr

/-- The IvoryCluster fields read by `SetHugePages`. -/
structure HugePagesCluster where
  instanceSets : List InstanceSetSpec
  deriving DecidableEq, Repr

/-- Modelled from the spec: the ivory package's `Parameters`/`ParameterSet`
types are not among the given files; a parameter set is a key/value map and
`Add` associates the value with the name (last write replaces). -/
structure Parameters where
  mandatory : List (String × String)
  default : List (String × String)
  deriving DecidableEq, Repr

/-- Modelled from the spec: `ParameterSet.Add` (map write, replacing any
previous value for the name, appending new names). -/
def parameterSetAdd (ps : List (String × String)) (k v : String) : List (String × String) :=
  match ps with
  | [] => [(k, v)]
  | (k', v') :: rest =>
      if k' = k then (k, v) :: rest else (k', v') :: parameterSetAdd rest k v

/-- `hugePagesRequested` checks whether a huge_pages value greater than zero
has been set in any of the IvoryCluster's instances' resource specs. -/
def hugePagesRequested (cluster : HugePagesCluster) : Bool :=
  cluster.instanceSets.any fun instSet =>
    instSet.limits.any fun nq =>
      nq.1.startsWith resourceHugePagesPrefix && nq.2 > 0

/-- `SetHugePages` looks for a valid huge_pages resource request; if it finds
one it sets the IvorySQL parameter "huge_pages" to "try", else to "off". -/
def setHugePages (cluster : HugePagesCluster) (pgParameters : Parameters) : Parameters :=
  if hugePagesRequested cluster then
    { pgParameters with default := parameterSetAdd pgParameters.default "huge_pages" "try" }
  else
    { pgParameters with default := parameterSetAdd pgParameters.default "huge_pages" "off" }

/-! ## Change-aware monitoring-exporter reconciliation
(package postgrescluster, pgmonitor.go) -/

/-- Container name constants (`naming` package, not among the given files;
modelled from the spec as opaque distinct names). -/
def containerPGMonitorExporter : String := "exporter"

/-- Database container name constant. -/
def containerDatabase : String := "database"

/-- A pod exec performed through `r.PodExec`: the target container and the
serialized standard input it would receive. -/
structure ExecCall where
  container : String
  stdin : String
  deriving DecidableEq, Repr

/-- The inputs `reconcilePGMonitorExporter` reads.  `writablePod` is the
result of `instances.writablePod` (none when no instance can accept writes);
`exporterRunning`/`exporterKnown` embed `writableInstance.IsRunning`;
`containerStatuses` lists `(name, imageID)` pairs of the writable pod in
order; `exporterConfiguration` is `cluster.Status.Monitoring.ExporterConfiguration`. -/
structure MonitorInputs where
  exporterEnabled : Bool
  writablePod : Bool
  exporterRunning : Bool
  exporterKnown : Bool
  containerStatuses : List (String × String)
  exporterConfiguration : String
  deriving DecidableEq, Repr

/-- Outcome of `reconcilePGMonitorExporter`: the pod execs performed, the
resulting `Status.Monitoring.ExporterConfiguration`, and whether a non-nil
error is returned. -/
structure MonitorOutcome where
  execs : List ExecCall
  exporterConfiguration : String
  hasError : Bool
  deriving DecidableEq, Repr

/-- Modelled from the spec: the serialized SQL input that
`pgmonitor.EnableExporterInPostgreSQL` writes to its executor for a given
setup script (the pgmonitor package is not among the given files). -/
def enableExporterStdin (setup : String) : String :=
  "enable-exporter-sql:" ++ setup

/-- Modelled from the spec: the serialized SQL input of
`pgmonitor.DisableExporterInPostgreSQL`. -/
def disableExporterStdin : String := "disable-exporter-sql"

/-- The action's serialized hashing input: the SQL written to the in-memory
hasher followed by the command and the two container image identifiers
(`fmt.Fprint(hasher, command, pgImageSHA, exporterImageSHA)`).  At hashing
time the `setup` variable is still the empty string. -/
def monitorRevisionInput (exporterEnabled : Bool) (pgImageSHA exporterImageSHA : String) : String :=
  (if exporterEnabled then enableExporterStdin "" else disableExporterStdin) ++
    "|command|" ++ pgImageSHA ++ "|" ++ exporterImageSHA

/-- Last-wins scan of the pod's container statuses for one container's
image ID (empty string when the container is absent). -/
def imageIDOf (statuses : List (String × String)) (container : String) : String :=
  statuses.foldl (fun acc st => if st.1 = container then st.2 else acc) ""

/-- The database-container image ID read by the reconciler (empty string
when the exporter is disabled, since the status loop is skipped). -/
def monitorPGImageSHA (inp : MonitorInputs) : String :=
  if inp.exporterEnabled then imageIDOf inp.containerStatuses containerDatabase else ""

/-- The exporter-container image ID read by the reconciler. -/
def monitorExporterImageSHA (inp : MonitorInputs) : String :=
  if inp.exporterEnabled then imageIDOf inp.containerStatuses containerPGMonitorExporter else ""

/-- The `revision` computed by `safeHash32` over the action's serialized
input and the two image identifiers; `hash` abstracts the 32-bit FNV hash
declared in a file not among the given files. -/
def monitorRevision (hash : String → String) (inp : MonitorInputs) : String :=
  hash (monitorRevisionInput inp.exporterEnabled
    (monitorPGImageSHA inp) (monitorExporterImageSHA inp))

/-- `reconcilePGMonitorExporter`, embedded as a pure function.  `hash`
abstracts `safeHash32` (declared in a file not among the given files); pod
execs always succeed in this model (their error paths return the error
unchanged without updating status and are not relevant to the verified
properties); `fetchedSetup` is the setup SQL returned by
`GetExporterSetupSQL`. -/
def reconcilePGMonitorExporter (hash : String → String) (fetchedSetup : String)
    (inp : MonitorInputs) : MonitorOutcome :=
  if ¬inp.writablePod then
    ⟨[], inp.exporterConfiguration, false⟩
  else
    let pgImageSHA := monitorPGImageSHA inp
    let exporterImageSHA := monitorExporterImageSHA inp
    if inp.exporterEnabled ∧ (¬inp.exporterRunning ∨ ¬inp.exporterKnown) then
      ⟨[], inp.exporterConfiguration, false⟩
    else if inp.exporterEnabled ∧ (exporterImageSHA = "" ∨ pgImageSHA = "") then
      ⟨[], inp.exporterConfiguration, false⟩
    else
      let revision := hash (monitorRevisionInput inp.exporterEnabled pgImageSHA exporterImageSHA)
      if revision ≠ inp.exporterConfiguration then
        let setupExecs := if inp.exporterEnabled
          then [⟨containerPGMonitorExporter, "get-exporter-setup-sql"⟩]
          else ([] : List ExecCall)
        let actionStdin := if inp.exporterEnabled
          then enableExporterStdin fetchedSetup else disableExporterStdin
        ⟨setupExecs ++ [⟨containerDatabase, actionStdin⟩], revision, false⟩
      else
        ⟨[], inp.exporterConfiguration, false⟩

/-! ## IvyUpgrade controller (package ivyupgrade) -/

/-- `metav1.ConditionStatus`. -/
inductive ConditionStatus
  | true_
  | false_
  | unknown
  deriving DecidableEq, Repr

/-- A `metav1.Condition` (the `LastTransitionTime` field is not read by any
decision in the controller and is omitted). -/
structure Condition where
  condType : String
  status : ConditionStatus
  reason : String
  message : String
  observedGeneration : Int
  deriving DecidableEq, Repr

/-- Modelled from the spec: `ConditionIvyUpgradeProgressing` is declared in an
ivyupgrade file not among the given files; the spec names the condition
`Progressing`. -/
def conditionIvyUpgradeProgressing : String := "Progressing"

/-- Modelled from the spec: `ConditionIvyUpgradeSucceeded`; the spec names the
condition `Succeeded`. -/
def conditionIvyUpgradeSucceeded : String := "Succeeded"

/-- `ivory-operator.highgo.com/allow-upgrade`. -/
def annotationAllowUpgrade : String := "ivory-operator.highgo.com/allow-upgrade"

/-- `meta.FindStatusCondition`: the first condition with the given type. -/
def findStatusCondition (conds : List Condition) (t : String) : Option Condition :=
  match conds with
  | [] => none
  | c :: rest => if c.condType = t then some c else findStatusCondition rest t

/-- `meta.SetStatusCondition`: overwrite the first condition with the same
type (status, reason, message and observedGeneration are all replaced), or
append when the type is not present. -/
def setStatusCondition (conds : List Condition) (c : Condition) : List Condition :=
  match conds with
  | [] => [c]
  | c' :: rest =>
      if c'.condType = c.condType then c :: rest else c' :: setStatusCondition rest c

/-- The `v1beta1.IvyUpgradeSpec` fields the controller reads. -/
structure IvyUpgradeSpec where
  ivoryClusterName : String
  fromIvoryVersion : Int
  toIvoryVersion : Int
  deriving DecidableEq, Repr

/-- A `v1beta1.IvyUpgrade` as fetched at the start of `Reconcile`. -/
structure IvyUpgrade where
  name : String
  generation : Int
  spec : IvyUpgradeSpec
  conditions : List Condition
  deriving DecidableEq, Repr

/-- The observed IvoryCluster fields the controller reads: its annotations
(association list; a missing key reads as `""` like a Go map), the declared
`Spec.PostgresVersion` and the reported `Status.PostgresVersion`. -/
structure IvoryClusterObserved where
  annots : List (String × String)
  specPostgresVersion : Int
  statusPostgresVersion : Int
  deriving DecidableEq, Repr

/-- Modelled from the spec: the role-label value marking remove-data jobs
(declared in an ivyupgrade file not among the given files). -/
def removeDataRole : String := "removedata"

/-- Modelled from the spec: the label value `ReplicaCreate` of the
`LabelPGBackRestBackup` label on replica-create backup jobs. -/
def replicaCreateValue : String := "replica-create"

/-- An observed `batchv1.Job`: its name, the values of its role and
pgBackRest-backup labels (empty when absent), and the completed/failed
outcome flags (`jobCompleted`/`jobFailed`, which read the job's conditions in
a file not among the given files). -/
structure JobObserved where
  name : String
  roleLabel : String
  backupLabel : String
  completed : Bool
  failed : Bool
  deriving DecidableEq, Repr

/-- The immutable world snapshot assembled by `observeWorld`. -/
structure World where
  clusterNotFound : Option String
  cluster : IvoryClusterObserved
  jobs : List JobObserved
  replicasExpected : Nat
  clusterShutdown : Bool
  clusterPrimary : Option String
  clusterReplicas : List String
  patroniEndpoints : List String
  deriving DecidableEq, Repr

/-- Modelled from the spec: `pgUpgradeJob(upgrade).Name`, the deterministic
upgrade-job name derived from the upgrade request (declared in an ivyupgrade
file not among the given files). -/
def pgUpgradeJobName (u : IvyUpgrade) : String := u.name ++ "-pgupgrade"

/-- The API mutations `Reconcile` can perform. -/
inductive Effect
  | applyUpgradeJob (upgradeName primary : String)
  | applyRemoveDataJob (upgradeName statefulSet : String)
  | deleteJob (name : String)
  | patchClusterStatusVersion (version : Int)
  | deleteEndpoint (name : String)
  deriving DecidableEq, Repr

/-- The outcome of one `Reconcile` invocation: the upgrade's status
conditions on exit (the deferred patch sends them iff they differ from the
input), the API effects performed, and the returned `ctrl.Result`/error. -/
structure ReconcileOutcome where
  conditions : List Condition
  effects : List Effect
  requeue : Bool
  hasError : Bool
  deriving DecidableEq, Repr

/-- `setStatusToProgressingIfReasonWas`: refresh `Progressing` to
`True/"IvyUpgradeProgressing"` when it is absent or its reason is the one
just resolved. -/
def setStatusToProgressingIfReasonWas (reason : String) (u : IvyUpgrade)
    (conds : List Condition) : List Condition :=
  let progressing := findStatusCondition conds conditionIvyUpgradeProgressing
  if progressing = none ∨ (progressing.map (·.reason)) = some reason then
    setStatusCondition conds
      { condType := conditionIvyUpgradeProgressing
        status := ConditionStatus.true_
        reason := "IvyUpgradeProgressing"
        message := "Upgrade progressing for cluster " ++ u.spec.ivoryClusterName
        observedGeneration := u.generation }
  else conds

/-- A `Progressing=False` condition with the given reason. -/
def progressingFalse (u : IvyUpgrade) (reason message : String) : Condition :=
  { condType := conditionIvyUpgradeProgressing
    status := ConditionStatus.false_
    reason := reason
    message := message
    observedGeneration := u.generation }

/-- The scan of `world.Jobs` for remove-data jobs: the number of completed
ones collected before the loop stops, and whether a failed one was found
(the loop breaks at the first failed remove-data job). -/
def removeDataScan : List JobObserved → Nat × Bool
  | [] => (0, false)
  | j :: rest =>
      if j.roleLabel = removeDataRole then
        if j.completed then
          let (n, f) := removeDataScan rest
          (n + 1, f)
        else if j.failed then (0, true)
        else removeDataScan rest
      else removeDataScan rest

/-- The replica-create job deletions of the completion fan-out:
`delete` with UID/resourceVersion preconditions for every job labelled
`ReplicaCreate`. -/
def deleteReplicaCreateJobs (jobs : List JobObserved) : List Effect :=
  (jobs.filter fun j => j.backupLabel = replicaCreateValue).map fun j => Effect.deleteJob j.name

/-- `IvyUpgradeReconciler.Reconcile`, embedded as a pure function of the
fetched upgrade object and the result of `observeWorld` (the `Get` of the
upgrade itself, which precedes everything modelled here, is assumed to have
succeeded).  API mutations are collected as effects and always succeed in
this model. -/
def reconcile (u : IvyUpgrade) (observed : Except String World) : ReconcileOutcome :=
  -- Exit if upgrade success condition has already been reached.
  let succeeded := findStatusCondition u.conditions conditionIvyUpgradeSucceeded
  if (succeeded.map (·.reason)) = some "IvyUpgradeSucceeded" then
    ⟨u.conditions, [], false, false⟩
  else
  let conds := setStatusToProgressingIfReasonWas "" u u.conditions
  -- The "from" version must be smaller than the "to" version.
  if u.spec.fromIvoryVersion ≥ u.spec.toIvoryVersion then
    ⟨setStatusCondition conds (progressingFalse u "IvyUpgradeInvalid"
      ("Cannot upgrade from ivory version " ++ toString u.spec.fromIvoryVersion ++
        " to " ++ toString u.spec.toIvoryVersion)), [], false, false⟩
  else
  let conds := setStatusToProgressingIfReasonWas "IvyUpgradeInvalid" u conds
  match observed with
  | Except.error e =>
      ⟨setStatusCondition conds (progressingFalse u "PGClusterErrorWhenObservingWorld" e),
        [], false, true⟩
  | Except.ok world =>
  let conds := setStatusToProgressingIfReasonWas "PGClusterErrorWhenObservingWorld" u conds
  match world.clusterNotFound with
  | some notFoundErr =>
      ⟨setStatusCondition conds (progressingFalse u "PGClusterNotFound" notFoundErr),
        [], false, false⟩
  | none =>
  let conds := setStatusToProgressingIfReasonWas "PGClusterNotFound" u conds
  let version := world.cluster.specPostgresVersion
  let statusVersion := world.cluster.statusPostgresVersion
  let upgradeJob := world.jobs.find? fun j => j.name = pgUpgradeJobName u
  let upgradeJobComplete := upgradeJob.elim false (·.completed)
  let upgradeJobFailed := upgradeJob.elim false (·.failed)
  let scan := removeDataScan world.jobs
  let removeDataJobsFailed := scan.2
  let removeDataJobsComplete := scan.1 = world.replicasExpected
  -- Declared version already at the target without a completed upgrade job:
  -- a no-op resolution.
  if version = u.spec.toIvoryVersion ∧ ¬upgradeJobComplete then
    ⟨setStatusCondition conds (progressingFalse u "IvyUpgradeResolved"
      ("IvoryCluster " ++ u.spec.ivoryClusterName ++ " is already running version " ++
        toString u.spec.toIvoryVersion)), [], false, false⟩
  else
  let conds := setStatusToProgressingIfReasonWas "IvyUpgradeResolved" u conds
  if statusVersion = u.spec.toIvoryVersion then
    let conds := setStatusCondition conds (progressingFalse u "IvyUpgradeCompleted"
      ("IvoryCluster " ++ u.spec.ivoryClusterName ++ " is running version " ++
        toString u.spec.toIvoryVersion))
    let conds := if upgradeJobComplete ∧ removeDataJobsComplete then
        setStatusCondition conds
          { condType := conditionIvyUpgradeSucceeded
            status := ConditionStatus.true_
            reason := "IvyUpgradeSucceeded"
            message := "IvoryCluster " ++ u.spec.ivoryClusterName ++
              " is ready to complete upgrade to version " ++ toString u.spec.toIvoryVersion
            observedGeneration := u.generation }
      else conds
    ⟨conds, [], false, false⟩
  else
  -- Wait until all instances are gone and the primary is identified.
  if ¬world.clusterShutdown ∨ world.clusterPrimary = none then
    ⟨setStatusCondition conds (progressingFalse u "PGClusterNotShutdown"
      "IvoryCluster instances still running"), [], false, false⟩
  else
  let conds := setStatusToProgressingIfReasonWas "PGClusterNotShutdown" u conds
  if version ≠ u.spec.fromIvoryVersion ∧ statusVersion ≠ u.spec.toIvoryVersion then
    ⟨setStatusCondition conds (progressingFalse u "IvyUpgradeInvalidForCluster"
      ("Current ivory version is " ++ toString version ++ ", but upgrade expected " ++
        toString u.spec.fromIvoryVersion)), [], false, false⟩
  else
  let conds := setStatusToProgressingIfReasonWas "IvyUpgradeInvalidForCluster" u conds
  -- The specified cluster must be annotated with the name of *this* upgrade.
  if ¬((world.cluster.annots.lookup annotationAllowUpgrade).getD "" = u.name) then
    ⟨setStatusCondition conds (progressingFalse u "PGClusterMissingRequiredAnnotation"
      ("IvoryCluster " ++ u.spec.ivoryClusterName ++ " lacks annotation for upgrade " ++
        u.name)), [], false, false⟩
  else
  let conds := setStatusToProgressingIfReasonWas "PGClusterMissingRequiredAnnotation" u conds
  -- Jobs run only once: any failed job fails the upgrade.
  if upgradeJobFailed ∨ removeDataJobsFailed then
    ⟨setStatusCondition conds
      { condType := conditionIvyUpgradeSucceeded
        status := ConditionStatus.false_
        reason := "IvyUpgradeFailed"
        message := "Upgrade jobs failed, please check individual pod logs"
        observedGeneration := u.generation }, [], false, false⟩
  else
  -- Completion fan-out: delete replica-create jobs and patch the cluster
  -- status version.
  if upgradeJobComplete ∧ removeDataJobsComplete ∧ statusVersion ≠ u.spec.toIvoryVersion then
    ⟨conds, deleteReplicaCreateJobs world.jobs ++
      [Effect.patchClusterStatusVersion u.spec.toIvoryVersion], false, false⟩
  else
  -- Drive forward: ensure the upgrade job, then the remove-data jobs.
  let createUpgrade := if ¬upgradeJobComplete then
      [Effect.applyUpgradeJob u.name ((world.clusterPrimary).getD "")]
    else []
  let createRemoveData := if upgradeJobComplete ∧ ¬removeDataJobsComplete then
      world.clusterReplicas.map (Effect.applyRemoveDataJob u.name)
    else []
  -- Clear the old Patroni DCS endpoints, then requeue.
  if world.patroniEndpoints ≠ [] then
    ⟨conds, createUpgrade ++ createRemoveData ++
      world.patroniEndpoints.map Effect.deleteEndpoint, true, false⟩
  else
    ⟨conds, createUpgrade ++ createRemoveData, false, false⟩

/-! ## Sample inputs used by concrete witnesses and counterexamples -/

/-- A concrete already-succeeded `Succeeded` condition, used by examples. -/
def succeededSample : Condition :=
  { condType := "Succeeded"
    status := ConditionStatus.true_
    reason := "IvyUpgradeSucceeded"
    message := ""
    observedGeneration := 1 }

/-- A concrete upgrade request whose success condition is already reached. -/
def upgradeDoneSample : IvyUpgrade :=
  { name := "u"
    generation := 1
    spec := { ivoryClusterName := "c", fromIvoryVersion := 14, toIvoryVersion := 15 }
    conditions := [succeededSample] }

/-- A succeeded upgrade whose spec was afterwards edited to the invalid pair
`from=15, to=14`. -/
def upgradeEditedSample : IvyUpgrade :=
  { name := "u"
    generation := 2
    spec := { ivoryClusterName := "c", fromIvoryVersion := 15, toIvoryVersion := 14 }
    conditions := [succeededSample] }

/-- A fresh upgrade request with the invalid pair `from=15, to=14`. -/
def upgradeInvalidSample : IvyUpgrade :=
  { name := "u"
    generation := 1
    spec := { ivoryClusterName := "c", fromIvoryVersion := 15, toIvoryVersion := 14 }
    conditions := [] }

/-- A fresh upgrade request with the valid pair `from=14, to=15`. -/
def upgradeFreshSample : IvyUpgrade :=
  { name := "u"
    generation := 1
    spec := { ivoryClusterName := "c", fromIvoryVersion := 14, toIvoryVersion := 15 }
    conditions := [] }

/-- A found cluster at declared and reported version 14 with no
allow-upgrade annotation, shut down with a primary identified. -/
def worldShutdownSample : World :=
  { clusterNotFound := none
    cluster := { annots := [], specPostgresVersion := 14, statusPostgresVersion := 14 }
    jobs := []
    replicasExpected := 0
    clusterShutdown := true
    clusterPrimary := some "c-primary"
    clusterReplicas := []
    patroniEndpoints := [] }

/-- The same cluster while its instances are still running. -/
def worldRunningSample : World :=
  { worldShutdownSample with clusterShutdown := false, clusterPrimary := none }

/-- A found cluster whose declared spec version is already 14. -/
def worldAtFourteenSample : World := worldShutdownSample

/-- A found cluster whose declared spec version was manually advanced
to 15 while the reported status version is still 14. -/
def worldAtFifteenSample : World :=
  { worldShutdownSample with
      cluster := { worldShutdownSample.cluster with specPostgresVersion := 15 } }

/-- An input whose recorded configuration matches the recomputed hash. -/
def monitorUnchangedSample : MonitorInputs :=
  { exporterEnabled := true
    writablePod := true
    exporterRunning := true
    exporterKnown := true
    containerStatuses := [("database", "sha1"), ("exporter", "sha2")]
    exporterConfiguration := "same" }

/-- An input whose recorded configuration is stale. -/
def monitorChangedSample : MonitorInputs :=
  { monitorUnchangedSample with exporterConfiguration := "old" }

/-- The key suffixes emitted for cloud-backed repositories. -/
def extSuffixes : List String :=
  ["-type", "-azure-container", "-gcs-bucket", "-s3-bucket", "-s3-endpoint", "-s3-region"]

/-- An S3-backed repository named `a`. -/
def s3RepoA : PGBackRestRepo :=
  { name := "a", volume := false, s3 := some { bucket := "b", endpoint := "e", region := "r" } }

/-- An S3-backed repository named `log`. -/
def s3RepoLog : PGBackRestRepo :=
  { name := "log", volume := false, s3 := some { bucket := "b", endpoint := "e", region := "r" } }

/-- An alternative Go-map iteration order: the same entries enumerated in
reverse.  Any permutation of the map's entries is a possible `range`
order; this is the concrete one used by the determinism counterexample. -/
def extRevSample : PGBackRestRepo → List (String × String) :=
  fun repo => (getExternalRepoConfigs repo).reverse

/-! ## Helper lemmas about status conditions -/

theorem findStatusCondition_setStatusCondition_self (l : List Condition) (c : Condition) :
    findStatusCondition (setStatusCondition l c) c.condType = some c := by
  induction l with
  | nil => simp [setStatusCondition, findStatusCondition]
  | cons c' rest ih =>
      by_cases h : c'.condType = c.condType
      · simp [setStatusCondition, findStatusCondition, h]
      · simp [setStatusCondition, findStatusCondition, h, ih]

theorem findStatusCondition_setStatusCondition_ne (l : List Condition) (c : Condition)
    (t : String) (h : t ≠ c.condType) :
    findStatusCondition (setStatusCondition l c) t = findStatusCondition l t := by
  have hne : ¬ c.condType = t := fun he => h he.symm
  induction l with
  | nil => simp [setStatusCondition, findStatusCondition, hne]
  | cons c' rest ih =>
      by_cases h' : c'.condType = c.condType
      · have hne' : ¬ c'.condType = t := by rw [h']; exact hne
        simp [setStatusCondition, findStatusCondition, h', hne, hne']
      · simp only [setStatusCondition, if_neg h', findStatusCondition]
        by_cases h'' : c'.condType = t
        · simp [h'']
        · simp [h'', ih]

theorem findStatusCondition_setIfWas_ne (r : String) (u : IvyUpgrade) (l : List Condition)
    (t : String) (h : t ≠ conditionIvyUpgradeProgressing) :
    findStatusCondition (setStatusToProgressingIfReasonWas r u l) t = findStatusCondition l t := by
  simp only [setStatusToProgressingIfReasonWas]
  split
  · exact findStatusCondition_setStatusCondition_ne l _ t h
  · rfl

/-- The success guard of `Reconcile` does not fire when no `Succeeded`
condition carries the reason `IvyUpgradeSucceeded`. -/
theorem succeeded_guard_not_taken (conds : List Condition)
    (h : ∀ c, findStatusCondition conds conditionIvyUpgradeSucceeded = some c →
      c.reason ≠ "IvyUpgradeSucceeded") :
    ¬ ((findStatusCondition conds conditionIvyUpgradeSucceeded).map (fun c => c.reason) =
      some "IvyUpgradeSucceeded") := by
  cases hfind : findStatusCondition conds conditionIvyUpgradeSucceeded with
  | none => simp
  | some c => simpa using h c hfind

/-! ## C1: monotonic success -/

/-- C1: once the upgrade's `Succeeded` condition is `True` with reason
`IvyUpgradeSucceeded`, every invocation of `Reconcile` on that object returns
immediately: the status conditions are unmodified (so `Succeeded` is never
set back to `False` or removed), no job is created, nothing is deleted, and
no error or requeue is returned. -/
theorem reconcile_after_success_is_noop (u : IvyUpgrade) (w : Except String World)
    (c : Condition)
    (hfind : findStatusCondition u.conditions conditionIvyUpgradeSucceeded = some c)
    (_hstatus : c.status = ConditionStatus.true_)
    (hreason : c.reason = "IvyUpgradeSucceeded") :
    reconcile u w = ⟨u.conditions, [], false, false⟩ := by
  unfold reconcile
  simp [hfind, hreason]

/-- Witness for C1 at a concrete succeeded upgrade. -/
theorem reconcile_after_success_is_noop_witness :
    reconcile upgradeDoneSample (Except.error "ignored") =
      ⟨[succeededSample], [], false, false⟩ :=
  reconcile_after_success_is_noop _ _ succeededSample rfl rfl rfl

/-! ## C2: invalid version pair -/

/-- Counterexample to C2 as stated: an upgrade whose `Succeeded` condition
already has reason `IvyUpgradeSucceeded` and whose spec was edited to
`from=15, to=14` is returned unchanged by `Reconcile`; no `Progressing`
condition with reason `IvyUpgradeInvalid` (nor any `Progressing` condition at
all) is ever written for it. -/
theorem invalid_version_pair_counterexample :
    upgradeEditedSample.spec.fromIvoryVersion ≥ upgradeEditedSample.spec.toIvoryVersion ∧
    findStatusCondition
      (reconcile upgradeEditedSample (Except.error "ignored")).conditions
      conditionIvyUpgradeProgressing = none := by
  constructor
  · decide
  · rfl

/-- C2 (amended): for every upgrade whose `Succeeded` condition does not
already carry reason `IvyUpgradeSucceeded`, if
`Spec.FromIvoryVersion ≥ Spec.ToIvoryVersion` then `Reconcile` sets the
`Progressing` condition to `False` with reason `IvyUpgradeInvalid` at the
current generation, creates no job, performs no other effect, and returns
with no error and no requeue. -/
theorem reconcile_invalid_version_pair (u : IvyUpgrade) (w : Except String World)
    (hns : ∀ c, findStatusCondition u.conditions conditionIvyUpgradeSucceeded = some c →
      c.reason ≠ "IvyUpgradeSucceeded")
    (hver : u.spec.fromIvoryVersion ≥ u.spec.toIvoryVersion) :
    (∃ c, findStatusCondition (reconcile u w).conditions conditionIvyUpgradeProgressing =
        some c ∧ c.status = ConditionStatus.false_ ∧ c.reason = "IvyUpgradeInvalid" ∧
        c.observedGeneration = u.generation) ∧
    (reconcile u w).effects = [] ∧
    (reconcile u w).requeue = false ∧
    (reconcile u w).hasError = false := by
  have hguard := succeeded_guard_not_taken u.conditions hns
  have hrec : reconcile u w =
      ⟨setStatusCondition (setStatusToProgressingIfReasonWas "" u u.conditions)
        (progressingFalse u "IvyUpgradeInvalid"
          ("Cannot upgrade from ivory version " ++ toString u.spec.fromIvoryVersion ++
            " to " ++ toString u.spec.toIvoryVersion)), [], false, false⟩ := by
    unfold reconcile
    simp [hguard, hver]
  refine ⟨⟨progressingFalse u "IvyUpgradeInvalid"
      ("Cannot upgrade from ivory version " ++ toString u.spec.fromIvoryVersion ++
        " to " ++ toString u.spec.toIvoryVersion), ?_, rfl, rfl, rfl⟩,
    by rw [hrec], by rw [hrec], by rw [hrec]⟩
  rw [hrec]
  exact findStatusCondition_setStatusCondition_self _ _

/-- Witness for C2 (amended) at `from=15, to=14` with no prior conditions. -/
theorem reconcile_invalid_version_pair_witness :
    (∃ c, findStatusCondition
        (reconcile upgradeInvalidSample (Except.error "ignored")).conditions
        conditionIvyUpgradeProgressing =
        some c ∧ c.status = ConditionStatus.false_ ∧ c.reason = "IvyUpgradeInvalid" ∧
        c.observedGeneration = 1) ∧
    (reconcile upgradeInvalidSample (Except.error "ignored")).effects = [] := by
  have h := reconcile_invalid_version_pair upgradeInvalidSample (Except.error "ignored")
    (by intro c hc; simp [upgradeInvalidSample, findStatusCondition] at hc)
    (by decide)
  exact ⟨h.1, h.2.1⟩

/-! ## C3: authorization gate -/

theorem succeeded_ne_progressing : conditionIvyUpgradeSucceeded ≠ conditionIvyUpgradeProgressing := by
  decide

/-- Counterexample to C3 as stated: with a valid version pair and a
mismatched allow-upgrade annotation but a cluster that is not shut down,
`Reconcile` writes `Progressing=False` with reason `PGClusterNotShutdown`,
not `PGClusterMissingRequiredAnnotation`. -/
theorem authorization_gate_counterexample :
    (findStatusCondition
      (reconcile upgradeFreshSample (Except.ok worldRunningSample)).conditions
      conditionIvyUpgradeProgressing).map (fun c => c.reason) =
      some "PGClusterNotShutdown" := by
  rfl

/-- C3 (amended), part one exactly as claimed about job creation, part two
the condition write restricted to the runs that reach the authorization
gate: (1) for every upgrade with a valid version pair whose target cluster's
allow-upgrade annotation does not equal the upgrade's name, `Reconcile`
performs no effect at all — in particular it never creates an upgrade job or
a remove-data job; (2) when additionally the earlier gates pass (cluster
found, declared version equal to `fromVersion`, status version not yet
`toVersion`, cluster shut down with a primary identified, success condition
not already reached), it sets `Progressing` to `False` with reason
`PGClusterMissingRequiredAnnotation`. -/
theorem reconcile_authorization_gate :
    (∀ (u : IvyUpgrade) (w : World),
      u.spec.fromIvoryVersion < u.spec.toIvoryVersion →
      (w.cluster.annots.lookup annotationAllowUpgrade).getD "" ≠ u.name →
      (reconcile u (Except.ok w)).effects = []) ∧
    (∀ (u : IvyUpgrade) (w : World),
      (∀ c, findStatusCondition u.conditions conditionIvyUpgradeSucceeded = some c →
        c.reason ≠ "IvyUpgradeSucceeded") →
      u.spec.fromIvoryVersion < u.spec.toIvoryVersion →
      w.clusterNotFound = none →
      w.cluster.specPostgresVersion = u.spec.fromIvoryVersion →
      w.cluster.statusPostgresVersion ≠ u.spec.toIvoryVersion →
      w.clusterShutdown = true →
      w.clusterPrimary ≠ none →
      (w.cluster.annots.lookup annotationAllowUpgrade).getD "" ≠ u.name →
      (∃ c, findStatusCondition (reconcile u (Except.ok w)).conditions
          conditionIvyUpgradeProgressing = some c ∧
        c.status = ConditionStatus.false_ ∧
        c.reason = "PGClusterMissingRequiredAnnotation" ∧
        c.observedGeneration = u.generation) ∧
      (reconcile u (Except.ok w)).effects = [] ∧
      (reconcile u (Except.ok w)).requeue = false ∧
      (reconcile u (Except.ok w)).hasError = false) := by
  constructor
  · intro u w hver hann
    simp only [reconcile]
    repeat' split
    all_goals rfl
  · intro u w hns hver hnf hcur hsv hsd hp hann
    have hguard := succeeded_guard_not_taken u.conditions hns
    have hge : ¬ u.spec.fromIvoryVersion ≥ u.spec.toIvoryVersion := not_le.mpr hver
    have hnto : u.spec.fromIvoryVersion ≠ u.spec.toIvoryVersion := ne_of_lt hver
    have hrec : reconcile u (Except.ok w) =
        ⟨setStatusCondition
          (setStatusToProgressingIfReasonWas "IvyUpgradeInvalidForCluster" u
            (setStatusToProgressingIfReasonWas "PGClusterNotShutdown" u
              (setStatusToProgressingIfReasonWas "IvyUpgradeResolved" u
                (setStatusToProgressingIfReasonWas "PGClusterNotFound" u
                  (setStatusToProgressingIfReasonWas "PGClusterErrorWhenObservingWorld" u
                    (setStatusToProgressingIfReasonWas "IvyUpgradeInvalid" u
                      (setStatusToProgressingIfReasonWas "" u u.conditions)))))))
          (progressingFalse u "PGClusterMissingRequiredAnnotation"
            ("IvoryCluster " ++ u.spec.ivoryClusterName ++ " lacks annotation for upgrade " ++
              u.name)), [], false, false⟩ := by
      unfold reconcile
      simp [hguard, hge, hnf, hcur, hnto, hsv, hsd, hp, hann]
    refine ⟨⟨progressingFalse u "PGClusterMissingRequiredAnnotation"
        ("IvoryCluster " ++ u.spec.ivoryClusterName ++ " lacks annotation for upgrade " ++
          u.name), ?_, rfl, rfl, rfl⟩, by rw [hrec], by rw [hrec], by rw [hrec]⟩
    rw [hrec]
    exact findStatusCondition_setStatusCondition_self _ _

/-- Witness for C3 at a concrete shut-down world lacking the annotation. -/
theorem reconcile_authorization_gate_witness :
    (reconcile upgradeFreshSample (Except.ok worldShutdownSample)).effects = [] ∧
    (∃ c, findStatusCondition
        (reconcile upgradeFreshSample (Except.ok worldShutdownSample)).conditions
        conditionIvyUpgradeProgressing = some c ∧
      c.status = ConditionStatus.false_ ∧
      c.reason = "PGClusterMissingRequiredAnnotation" ∧
      c.observedGeneration = 1) := by
  have h := reconcile_authorization_gate.2 upgradeFreshSample worldShutdownSample
    (by intro c hc; simp [upgradeFreshSample, findStatusCondition] at hc)
    (by decide) rfl rfl (by decide) rfl (by simp [worldShutdownSample]) (by decide)
  exact ⟨h.2.1, h.1⟩

/-! ## C4: resolved no-op -/

/-- Counterexample to C4 as stated: when the declared spec version already
equals `toVersion` but the version pair is invalid (`from=15, to=14`,
cluster already at 14), `Reconcile` writes reason `IvyUpgradeInvalid`, not
`IvyUpgradeResolved`. -/
theorem resolved_noop_counterexample :
    worldAtFourteenSample.cluster.specPostgresVersion =
      upgradeInvalidSample.spec.toIvoryVersion ∧
    (findStatusCondition
      (reconcile upgradeInvalidSample (Except.ok worldAtFourteenSample)).conditions
      conditionIvyUpgradeProgressing).map (fun c => c.reason) =
      some "IvyUpgradeInvalid" := by
  exact ⟨rfl, rfl⟩

/-- C4 (amended): for an upgrade with a valid version pair whose success
condition has not already been reached, observing a found cluster whose
declared spec version already equals `ToIvoryVersion` while the upgrade job
has not completed, `Reconcile` sets `Progressing` to `False` with reason
`IvyUpgradeResolved`, performs no effect (creates no job), leaves the
`Succeeded` condition exactly as it was (it is never set), and returns with
no error and no requeue. -/
theorem reconcile_resolved_noop (u : IvyUpgrade) (w : World)
    (hns : ∀ c, findStatusCondition u.conditions conditionIvyUpgradeSucceeded = some c →
      c.reason ≠ "IvyUpgradeSucceeded")
    (hver : u.spec.fromIvoryVersion < u.spec.toIvoryVersion)
    (hnf : w.clusterNotFound = none)
    (hcur : w.cluster.specPostgresVersion = u.spec.toIvoryVersion)
    (hujc : (w.jobs.find? fun j => j.name = pgUpgradeJobName u).elim false (·.completed) =
      false) :
    (∃ c, findStatusCondition (reconcile u (Except.ok w)).conditions
        conditionIvyUpgradeProgressing = some c ∧
      c.status = ConditionStatus.false_ ∧ c.reason = "IvyUpgradeResolved" ∧
      c.observedGeneration = u.generation) ∧
    (reconcile u (Except.ok w)).effects = [] ∧
    findStatusCondition (reconcile u (Except.ok w)).conditions conditionIvyUpgradeSucceeded =
      findStatusCondition u.conditions conditionIvyUpgradeSucceeded ∧
    (reconcile u (Except.ok w)).requeue = false ∧
    (reconcile u (Except.ok w)).hasError = false := by
  have hguard := succeeded_guard_not_taken u.conditions hns
  have hge : ¬ u.spec.fromIvoryVersion ≥ u.spec.toIvoryVersion := not_le.mpr hver
  have hrec : reconcile u (Except.ok w) =
      ⟨setStatusCondition
        (setStatusToProgressingIfReasonWas "PGClusterNotFound" u
          (setStatusToProgressingIfReasonWas "PGClusterErrorWhenObservingWorld" u
            (setStatusToProgressingIfReasonWas "IvyUpgradeInvalid" u
              (setStatusToProgressingIfReasonWas "" u u.conditions))))
        (progressingFalse u "IvyUpgradeResolved"
          ("IvoryCluster " ++ u.spec.ivoryClusterName ++ " is already running version " ++
            toString u.spec.toIvoryVersion)), [], false, false⟩ := by
    unfold reconcile
    simp [hguard, hge, hnf, hcur, hujc]
  refine ⟨⟨progressingFalse u "IvyUpgradeResolved"
      ("IvoryCluster " ++ u.spec.ivoryClusterName ++ " is already running version " ++
        toString u.spec.toIvoryVersion), ?_, rfl, rfl, rfl⟩,
    by rw [hrec], ?_, by rw [hrec], by rw [hrec]⟩
  · rw [hrec]
    exact findStatusCondition_setStatusCondition_self _ _
  · rw [hrec]
    exact (findStatusCondition_setStatusCondition_ne _ _ _ succeeded_ne_progressing).trans
      ((findStatusCondition_setIfWas_ne _ _ _ _ succeeded_ne_progressing).trans
        ((findStatusCondition_setIfWas_ne _ _ _ _ succeeded_ne_progressing).trans
          ((findStatusCondition_setIfWas_ne _ _ _ _ succeeded_ne_progressing).trans
            (findStatusCondition_setIfWas_ne _ _ _ _ succeeded_ne_progressing))))

/-- Witness for C4 at a cluster already declared at version 15. -/
theorem reconcile_resolved_noop_witness :
    (∃ c, findStatusCondition
        (reconcile upgradeFreshSample (Except.ok worldAtFifteenSample)).conditions
        conditionIvyUpgradeProgressing = some c ∧
      c.status = ConditionStatus.false_ ∧ c.reason = "IvyUpgradeResolved" ∧
      c.observedGeneration = 1) ∧
    (reconcile upgradeFreshSample (Except.ok worldAtFifteenSample)).effects = [] := by
  have h := reconcile_resolved_noop upgradeFreshSample worldAtFifteenSample
    (by intro c hc; simp [upgradeFreshSample, findStatusCondition] at hc)
    (by decide) rfl rfl rfl
  exact ⟨h.1, h.2.1⟩

/-! ## C8: change-aware exporter SQL execution -/

/-- C8: the monitoring-exporter SQL action is executed (some pod exec is
performed) only when the computed revision hash differs from the value
recorded in `Status.Monitoring.ExporterConfiguration`; when the hash is
equal, `reconcilePGMonitorExporter` performs no pod exec, leaves the
recorded configuration unchanged, and returns nil. -/
theorem reconcilePGMonitorExporter_change_gated :
    (∀ (hash : String → String) (setup : String) (inp : MonitorInputs),
      (reconcilePGMonitorExporter hash setup inp).execs ≠ [] →
      monitorRevision hash inp ≠ inp.exporterConfiguration) ∧
    (∀ (hash : String → String) (setup : String) (inp : MonitorInputs),
      monitorRevision hash inp = inp.exporterConfiguration →
      reconcilePGMonitorExporter hash setup inp = ⟨[], inp.exporterConfiguration, false⟩) := by
  constructor
  · intro hash setup inp hne
    unfold reconcilePGMonitorExporter at hne
    by_cases hrev : hash (monitorRevisionInput inp.exporterEnabled (monitorPGImageSHA inp)
        (monitorExporterImageSHA inp)) = inp.exporterConfiguration
    · exfalso
      apply hne
      repeat' split
      all_goals simp_all
    · simpa [monitorRevision] using hrev
  · intro hash setup inp heq
    have hnn : ¬ (hash (monitorRevisionInput inp.exporterEnabled (monitorPGImageSHA inp)
        (monitorExporterImageSHA inp)) ≠ inp.exporterConfiguration) := by
      simpa [monitorRevision] using heq
    unfold reconcilePGMonitorExporter
    repeat' split
    all_goals simp_all [monitorRevision]

/-- Witness for C8: with a constant hash `"same"` equal to the recorded
value nothing is executed and the status is unchanged; with a stale recorded
value the performed execs imply the hashes differ. -/
theorem reconcilePGMonitorExporter_change_gated_witness :
    reconcilePGMonitorExporter (fun _ => "same") "setup" monitorUnchangedSample =
      ⟨[], "same", false⟩ ∧
    monitorRevision (fun _ => "same") monitorChangedSample ≠
      monitorChangedSample.exporterConfiguration :=
  ⟨reconcilePGMonitorExporter_change_gated.2 (fun _ => "same") "setup"
      monitorUnchangedSample rfl,
    reconcilePGMonitorExporter_change_gated.1 (fun _ => "same") "setup"
      monitorChangedSample (by decide)⟩

/-! ## C9: TLS server log verbosity -/

/-- Counterexample to C9 as stated: the server section of `serverConfig`
sets `log-level-console` to `detail`, which sends DETAIL and INFO messages
(not only warnings and errors) to standard output; `detail` is not among the
levels (`off`, `error`, `warn`) that would restrict the console to warnings
and errors. -/
theorem server_log_verbosity_counterexample :
    iniLookup ((sectionLookup (serverConfig { ipVersionAnn := "", clientCommonName := "pgbackrest" })
        "global:server").getD []) "log-level-console" = some ["detail"] ∧
    "detail" ∉ (["off", "error", "warn"] : List String) := by
  constructor
  · rfl
  · decide

/-- C9 (amended): the TLS listener configuration tunes log verbosity so that
stderr carries only errors (`log-level-stderr = error`) while stdout carries
warn, info and detail messages (`log-level-console = detail`); file logging
is off and timestamps are suppressed. -/
theorem serverConfig_log_levels (cluster : ServerConfigCluster) :
    sectionLookup (serverConfig cluster) "global:server" =
      some [("log-level-console", ["detail"]), ("log-level-stderr", ["error"]),
        ("log-level-file", ["off"]), ("log-timestamp", ["n"])] := by
  rfl

/-! ## C10: huge_pages parameter -/

/-- C10: `SetHugePages` adds exactly one `huge_pages` parameter to the
default parameter set, leaving the mandatory set untouched; its value is
`try` precisely when some instance set has a resource limit whose name
starts with the huge-pages prefix and whose quantity is strictly positive,
and `off` otherwise. -/
theorem setHugePages_spec (cluster : HugePagesCluster) (p : Parameters) :
    (setHugePages cluster p).mandatory = p.mandatory ∧
    (setHugePages cluster p).default = parameterSetAdd p.default "huge_pages"
      (if hugePagesRequested cluster then "try" else "off") ∧
    (hugePagesRequested cluster = true ↔
      ∃ instSet ∈ cluster.instanceSets, ∃ nq ∈ instSet.limits,
        nq.1.startsWith resourceHugePagesPrefix = true ∧ nq.2 > 0) := by
  refine ⟨?_, ?_, ?_⟩
  · unfold setHugePages
    split <;> rfl
  · unfold setHugePages
    split
    · next h => simp [h]
    · next h => simp [h]
  · simp [hugePagesRequested, List.any_eq_true, Bool.and_eq_true, decide_eq_true_eq]

/-! ## Decimal rendering lemmas -/

theorem digitChar_digit (d : Nat) (h : d < 10) :
    48 ≤ (Nat.digitChar d).toNat ∧ (Nat.digitChar d).toNat ≤ 57 := by
  interval_cases d <;> decide

theorem digitChar_inj (d e : Nat) (hd : d < 10) (he : e < 10)
    (h : Nat.digitChar d = Nat.digitChar e) : d = e := by
  interval_cases d <;> interval_cases e <;> revert h <;> decide

theorem decimalChars_lt (n : Nat) (h : n < 10) : decimalChars n = [Nat.digitChar n] := by
  rw [decimalChars]
  simp [h]

theorem decimalChars_ge (n : Nat) (h : ¬ n < 10) :
    decimalChars n = decimalChars (n / 10) ++ [Nat.digitChar (n % 10)] := by
  rw [decimalChars]
  simp [h]

theorem decimalChars_ne_nil (n : Nat) : decimalChars n ≠ [] := by
  by_cases h : n < 10
  · rw [decimalChars_lt n h]
    simp
  · rw [decimalChars_ge n h]
    simp

theorem decimalChars_digits (n : Nat) :
    ∀ c ∈ decimalChars n, 48 ≤ c.toNat ∧ c.toNat ≤ 57 := by
  induction n using Nat.strong_induction_on with
  | _ n ih =>
    by_cases h : n < 10
    · rw [decimalChars_lt n h]
      intro c hc
      simp only [List.mem_singleton] at hc
      subst hc
      exact digitChar_digit n h
    · rw [decimalChars_ge n h]
      intro c hc
      rcases List.mem_append.mp hc with hc | hc
      · exact ih (n / 10) (Nat.div_lt_self (by omega) (by omega)) c hc
      · simp only [List.mem_singleton] at hc
        subst hc
        exact digitChar_digit _ (Nat.mod_lt _ (by omega))

theorem decimalChars_inj : ∀ m n : Nat, decimalChars m = decimalChars n → m = n := by
  intro m
  induction m using Nat.strong_induction_on with
  | _ m ih =>
    intro n h
    by_cases hm : m < 10 <;> by_cases hn : n < 10
    · rw [decimalChars_lt m hm, decimalChars_lt n hn] at h
      simp only [List.cons.injEq, and_true] at h
      exact digitChar_inj m n hm hn h
    · rw [decimalChars_lt m hm, decimalChars_ge n hn] at h
      have hlen := congrArg List.length h
      rw [List.length_append] at hlen
      simp only [List.length_singleton] at hlen
      exact absurd (List.eq_nil_of_length_eq_zero (by omega)) (decimalChars_ne_nil (n / 10))
    · rw [decimalChars_ge m hm, decimalChars_lt n hn] at h
      have hlen := congrArg List.length h
      rw [List.length_append] at hlen
      simp only [List.length_singleton] at hlen
      exact absurd (List.eq_nil_of_length_eq_zero (by omega)) (decimalChars_ne_nil (m / 10))
    · rw [decimalChars_ge m hm, decimalChars_ge n hn] at h
      have h' := congrArg List.reverse h
      simp only [List.reverse_append, List.reverse_singleton, List.singleton_append,
        List.cons.injEq] at h'
      have hmod := digitChar_inj _ _ (Nat.mod_lt _ (by omega)) (Nat.mod_lt _ (by omega)) h'.1
      have hdiv := ih (m / 10) (Nat.div_lt_self (by omega) (by omega)) (n / 10)
        (List.reverse_injective h'.2)
      omega

/-- If a string satisfies `headBelow48`, its first character (when present)
is below code point 48. -/
theorem headBelow48_spec (s : String) (h : headBelow48 s = true) :
    ∀ c, s.data.head? = some c → c.toNat < 48 := by
  intro c hc
  unfold headBelow48 at h
  rw [hc] at h
  simpa using h

/-- A run of decimal digits followed by a non-digit determines the split
point: two such concatenations are equal only componentwise. -/
theorem digits_append_cancel :
    ∀ (xs ys s t : List Char),
      (∀ c ∈ xs, 48 ≤ c.toNat ∧ c.toNat ≤ 57) →
      (∀ c ∈ ys, 48 ≤ c.toNat ∧ c.toNat ≤ 57) →
      (∀ c, s.head? = some c → c.toNat < 48) →
      (∀ c, t.head? = some c → c.toNat < 48) →
      xs ++ s = ys ++ t → xs = ys ∧ s = t := by
  intro xs
  induction xs with
  | nil =>
    intro ys s t _ hys hs _ h
    cases ys with
    | nil => exact ⟨rfl, h⟩
    | cons c ys' =>
      simp only [List.nil_append, List.cons_append] at h
      have hc := hs c (by rw [h]; rfl)
      have hd := hys c (by simp)
      omega
  | cons x xs' ih =>
    intro ys s t hxs hys hs ht h
    cases ys with
    | nil =>
      simp only [List.nil_append, List.cons_append] at h
      have hc := ht x (by rw [← h]; rfl)
      have hd := hxs x (by simp)
      omega
    | cons c ys' =>
      simp only [List.cons_append, List.cons.injEq] at h
      obtain ⟨h1, h2⟩ := h
      obtain ⟨ha, hb⟩ := ih ys' s t (fun d hd => hxs d (by simp [hd]))
        (fun d hd => hys d (by simp [hd])) hs ht h2
      exact ⟨by rw [h1, ha], hb⟩

/-- Keys of the form `pg<index><suffix>` with non-digit-initial suffixes are
injective in the index and the suffix. -/
theorem pg_key_inj (a b : Nat) (s t : String)
    (hs : headBelow48 s = true) (ht : headBelow48 t = true)
    (h : "pg" ++ decimalRepr a ++ s = "pg" ++ decimalRepr b ++ t) : a = b ∧ s = t := by
  have hd := congrArg String.data h
  simp only [String.data_append] at hd
  have hd' : decimalChars a ++ s.data = decimalChars b ++ t.data := by
    have hassoc : "pg".data ++ (decimalChars a ++ s.data) =
        "pg".data ++ (decimalChars b ++ t.data) := by
      simpa [decimalRepr, List.append_assoc] using hd
    exact List.append_cancel_left hassoc
  obtain ⟨h1, h2⟩ := digits_append_cancel _ _ _ _ (decimalChars_digits a)
    (decimalChars_digits b) (headBelow48_spec s hs) (headBelow48_spec t ht) hd'
  exact ⟨decimalChars_inj a b h1, String.ext h2⟩

theorem pg_key_ne (a b : Nat) (s t : String)
    (hs : headBelow48 s = true) (ht : headBelow48 t = true)
    (h : a ≠ b ∨ s ≠ t) : "pg" ++ decimalRepr a ++ s ≠ "pg" ++ decimalRepr b ++ t := by
  intro heq
  obtain ⟨h1, h2⟩ := pg_key_inj a b s t hs ht heq
  rcases h with h | h
  · exact h h1
  · exact h h2

/-! ## Fresh-key insertion lemmas -/

theorem iniSet_fresh_append (ms : IniMultiSet) (k v : String)
    (h : ∀ p ∈ ms, p.1 ≠ k) : iniSet ms k v = ms ++ [(k, [v])] := by
  induction ms with
  | nil => rfl
  | cons p rest ih =>
      have hp : p.1 ≠ k := h p (by simp)
      simp only [iniSet, if_neg hp, List.cons_append, List.cons.injEq, true_and]
      exact ih (fun q hq => h q (by simp [hq]))

theorem iniSetAll_fresh_append :
    ∀ (kvs : List (String × String)) (ms : IniMultiSet),
      (∀ kv ∈ kvs, ∀ p ∈ ms, p.1 ≠ kv.1) →
      List.Pairwise (fun a b => a.1 ≠ b.1) kvs →
      iniSetAll ms kvs = ms ++ kvs.map (fun kv => (kv.1, [kv.2])) := by
  intro kvs
  induction kvs with
  | nil => intro ms _ _; simp [iniSetAll]
  | cons kv rest ih =>
      intro ms hfresh hpair
      have hstep : iniSet ms kv.1 kv.2 = ms ++ [(kv.1, [kv.2])] :=
        iniSet_fresh_append ms kv.1 kv.2 (fun p hp => hfresh kv (by simp) p hp)
      have hcons : iniSetAll ms (kv :: rest) = iniSetAll (ms ++ [(kv.1, [kv.2])]) rest := by
        simp [iniSetAll, hstep]
      rw [hcons, ih (ms ++ [(kv.1, [kv.2])]) ?_ (List.pairwise_cons.mp hpair).2]
      · simp
      · intro kv' hkv' p hp
        rcases List.mem_append.mp hp with hp | hp
        · exact hfresh kv' (by simp [hkv']) p hp
        · simp only [List.mem_singleton] at hp
          rw [hp]
          exact fun he => (List.pairwise_cons.mp hpair).1 kv' hkv' he

/-- Every key written by the per-host block has the `pg<i+1><suffix>`
shape. -/
theorem repoHostBlockKVs_keys (serviceName serviceNamespace pgdataDir : String) (pgPort : Int)
    (i : Nat) (pgHost : String) :
    ∀ kv ∈ repoHostBlockKVs serviceName serviceNamespace pgdataDir pgPort i pgHost,
      ∃ s ∈ hostSuffixes, kv.1 = "pg" ++ decimalRepr (i + 1) ++ s := by
  intro kv hkv
  simp only [repoHostBlockKVs, List.mem_cons, List.mem_singleton,
    List.not_mem_nil, or_false] at hkv
  rcases hkv with rfl | rfl | rfl | rfl | rfl | rfl | rfl | rfl
  · exact ⟨"-host", by simp [hostSuffixes], rfl⟩
  · exact ⟨"-host-type", by simp [hostSuffixes], rfl⟩
  · exact ⟨"-host-ca-file", by simp [hostSuffixes], rfl⟩
  · exact ⟨"-host-cert-file", by simp [hostSuffixes], rfl⟩
  · exact ⟨"-host-key-file", by simp [hostSuffixes], rfl⟩
  · exact ⟨"-path", by simp [hostSuffixes], rfl⟩
  · exact ⟨"-port", by simp [hostSuffixes], rfl⟩
  · exact ⟨"-socket-path", by simp [hostSuffixes], rfl⟩

theorem hostSuffixes_head : ∀ s ∈ hostSuffixes, headBelow48 s = true := by
  decide

/-- The eight per-host keys are pairwise distinct. -/
theorem repoHostBlockKVs_pairwise (serviceName serviceNamespace pgdataDir : String)
    (pgPort : Int) (i : Nat) (pgHost : String) :
    List.Pairwise (fun a b => a.1 ≠ b.1)
      (repoHostBlockKVs serviceName serviceNamespace pgdataDir pgPort i pgHost) := by
  have hne : ∀ s t : String, s ∈ hostSuffixes → t ∈ hostSuffixes → s ≠ t →
      "pg" ++ decimalRepr (i + 1) ++ s ≠ "pg" ++ decimalRepr (i + 1) ++ t := fun s t hs ht hst =>
    pg_key_ne _ _ s t (hostSuffixes_head s hs) (hostSuffixes_head t ht) (Or.inr hst)
  simp only [repoHostBlockKVs, List.pairwise_cons, List.mem_cons, List.mem_singleton,
    List.not_mem_nil, or_false, List.Pairwise.nil, and_true]
  repeat' apply And.intro
  all_goals
    intro p hp
    rcases hp with rfl | rfl | rfl | rfl | rfl | rfl | rfl | rfl <;>
      exact hne _ _ (by simp [hostSuffixes]) (by simp [hostSuffixes]) (by decide)

/-- The repo-host per-host loop appends, for each host in list order, the
eight options for the next index. -/
theorem repoHostStanzaLoop_eq (serviceName serviceNamespace pgdataDir : String) (pgPort : Int) :
    ∀ (hosts : List String) (i : Nat) (stanza : IniMultiSet),
      (∀ p ∈ stanza, ∀ j, i < j → ∀ s ∈ hostSuffixes, p.1 ≠ "pg" ++ decimalRepr j ++ s) →
      repoHostStanzaLoop serviceName serviceNamespace pgdataDir pgPort stanza i hosts =
        stanza ++ repoHostStanzaExpected serviceName serviceNamespace pgdataDir pgPort i hosts := by
  intro hosts
  induction hosts with
  | nil =>
      intro i stanza _
      simp [repoHostStanzaLoop, repoHostStanzaExpected]
  | cons h rest ih =>
      intro i stanza hinv
      have hstep : repoHostStanzaStep serviceName serviceNamespace pgdataDir pgPort stanza i h =
          stanza ++ (repoHostBlockKVs serviceName serviceNamespace pgdataDir pgPort i h).map
            (fun kv => (kv.1, [kv.2])) := by
        unfold repoHostStanzaStep
        apply iniSetAll_fresh_append
        · intro kv hkv p hp
          obtain ⟨s, hsmem, hkey⟩ := repoHostBlockKVs_keys _ _ _ _ _ _ kv hkv
          rw [hkey]
          exact hinv p hp (i + 1) (by omega) s hsmem
        · exact repoHostBlockKVs_pairwise _ _ _ _ _ _
      have hnext : ∀ p ∈ stanza ++ (repoHostBlockKVs serviceName serviceNamespace pgdataDir
            pgPort i h).map (fun kv => (kv.1, [kv.2])),
          ∀ j, i + 1 < j → ∀ s ∈ hostSuffixes, p.1 ≠ "pg" ++ decimalRepr j ++ s := by
        intro p hp j hj s hs
        rcases List.mem_append.mp hp with hp | hp
        · exact hinv p hp j (by omega) s hs
        · simp only [List.mem_map] at hp
          obtain ⟨kv, hkv, rfl⟩ := hp
          obtain ⟨s', hs'mem, hkey⟩ := repoHostBlockKVs_keys _ _ _ _ _ _ kv hkv
          rw [hkey]
          exact pg_key_ne (i + 1) j s' s (hostSuffixes_head s' hs'mem)
            (hostSuffixes_head s hs) (Or.inl (by omega))
      calc repoHostStanzaLoop serviceName serviceNamespace pgdataDir pgPort stanza i (h :: rest)
          = repoHostStanzaLoop serviceName serviceNamespace pgdataDir pgPort
            (repoHostStanzaStep serviceName serviceNamespace pgdataDir pgPort stanza i h)
            (i + 1) rest := rfl
        _ = (stanza ++ (repoHostBlockKVs serviceName serviceNamespace pgdataDir pgPort i h).map
              (fun kv => (kv.1, [kv.2]))) ++
            repoHostStanzaExpected serviceName serviceNamespace pgdataDir pgPort (i + 1) rest := by
            rw [hstep]
            exact ih (i + 1) _ (hstep ▸ hnext)
        _ = stanza ++ repoHostStanzaExpected serviceName serviceNamespace pgdataDir pgPort i
              (h :: rest) := by
            simp [repoHostStanzaExpected]

/-- The keys of the expected stanza for hosts numbered from `i`. -/
theorem repoHostStanzaExpected_keys (serviceName serviceNamespace pgdataDir : String)
    (pgPort : Int) :
    ∀ (hosts : List String) (i : Nat),
      (repoHostStanzaExpected serviceName serviceNamespace pgdataDir pgPort i hosts).map
          Prod.fst =
        (List.range hosts.length).flatMap
          (fun k => hostSuffixes.map fun s => "pg" ++ decimalRepr (i + k + 1) ++ s) := by
  intro hosts
  induction hosts with
  | nil => intro i; simp [repoHostStanzaExpected]
  | cons h rest ih =>
      intro i
      have hblock : ((repoHostBlockKVs serviceName serviceNamespace pgdataDir pgPort i h).map
          (fun kv => (kv.1, [kv.2]))).map Prod.fst =
          hostSuffixes.map fun s => "pg" ++ decimalRepr (i + 1) ++ s := by
        simp [repoHostBlockKVs, hostSuffixes]
      have hrange : List.range (rest.length + 1) = 0 :: (List.range rest.length).map (· + 1) :=
        List.range_succ_eq_map rest.length
      have harith : (fun k => hostSuffixes.map fun s =>
          "pg" ++ decimalRepr (i + 1 + k + 1) ++ s) =
          ((fun k => hostSuffixes.map fun s => "pg" ++ decimalRepr (i + k + 1) ++ s) ∘
            (· + 1)) := by
        funext k
        have hk : i + 1 + k + 1 = i + (k + 1) + 1 := by omega
        simp [Function.comp, hk]
      simp only [repoHostStanzaExpected, List.map_append, hblock, List.length_cons, hrange,
        List.flatMap_cons, List.map_flatMap]
      rw [ih (i + 1), harith]
      congr 1
      rw [List.flatMap_map]
      rfl

/-! ## C6: stanza index invariant -/

/-- C6: in instance-role synthesis the local stanza always carries exactly
the keys `pg1-path`, `pg1-port`, `pg1-socket-path` regardless of the
repository list; in repo-host-role synthesis the stanza consists, for each
host in input order, of the eight per-host options with indices exactly
`1..N` (`N` the host-list length), as witnessed by the expected-stanza shape
and its key listing. -/
theorem stanza_index_invariant :
    (∀ (serviceName serviceNamespace repoHostName pgdataDir : String) (pgPort : Int)
       (repos : List PGBackRestRepo) (globalConfig : List (String × String)),
      sectionLookup (populatePGInstanceConfigurationMap serviceName serviceNamespace
          repoHostName pgdataDir pgPort repos globalConfig) defaultStanzaName =
        some [("pg1-path", [pgdataDir]), ("pg1-port", [toString pgPort]),
          ("pg1-socket-path", [socketDirectory])]) ∧
    (∀ (serviceName serviceNamespace pgdataDir : String) (pgPort : Int)
       (pgHosts : List String) (repos : List PGBackRestRepo)
       (globalConfig : List (String × String)),
      sectionLookup (populateRepoHostConfigurationMap serviceName serviceNamespace pgdataDir
          pgPort pgHosts repos globalConfig) defaultStanzaName =
        some (repoHostStanzaExpected serviceName serviceNamespace pgdataDir pgPort 0 pgHosts) ∧
      (repoHostStanzaExpected serviceName serviceNamespace pgdataDir pgPort 0 pgHosts).map
          Prod.fst =
        (List.range pgHosts.length).flatMap
          (fun k => hostSuffixes.map fun s => "pg" ++ decimalRepr (k + 1) ++ s)) := by
  constructor
  · intro serviceName serviceNamespace repoHostName pgdataDir pgPort repos globalConfig
    rfl
  · intro serviceName serviceNamespace pgdataDir pgPort pgHosts repos globalConfig
    constructor
    · have hloop := repoHostStanzaLoop_eq serviceName serviceNamespace pgdataDir pgPort
        pgHosts 0 [] (by intro p hp; simp at hp)
      simp only [populateRepoHostConfigurationMap]
      rw [show sectionLookup [("global", iniSetAll (List.foldl repoHostRepoStep
          (([] : IniMultiSet), false) repos).1 globalConfig),
          (defaultStanzaName, repoHostStanzaLoop serviceName serviceNamespace pgdataDir pgPort
            [] 0 pgHosts)] defaultStanzaName =
          some (repoHostStanzaLoop serviceName serviceNamespace pgdataDir pgPort [] 0 pgHosts)
        from rfl]
      rw [hloop]
      simp
    · have := repoHostStanzaExpected_keys serviceName serviceNamespace pgdataDir pgPort
        pgHosts 0
      simpa using this

/-! ## Lookup lemmas for C7 -/

theorem iniLookup_iniSet (ms : IniMultiSet) (k v q : String) :
    iniLookup (iniSet ms k v) q = if k = q then some [v] else iniLookup ms q := by
  induction ms with
  | nil => simp [iniSet, iniLookup]
  | cons p rest ih =>
      by_cases hpk : p.1 = k
      · by_cases hkq : k = q
        · simp [iniSet, hpk, iniLookup, hkq]
        · have hpq : ¬ p.1 = q := by rw [hpk]; exact hkq
          simp [iniSet, hpk, iniLookup, hkq, hpq]
      · by_cases hpq : p.1 = q
        · have hkq : ¬ k = q := fun he => hpk (hpq.trans he.symm)
          have hqk : ¬ q = k := fun he => hkq he.symm
          simp [iniSet, hpk, iniLookup, hpq, hkq, hqk]
        · simp [iniSet, hpk, iniLookup, hpq, ih]

theorem iniLookup_iniSetAll_ne :
    ∀ (kvs : List (String × String)) (ms : IniMultiSet) (q : String),
      (∀ kv ∈ kvs, kv.1 ≠ q) →
      iniLookup (iniSetAll ms kvs) q = iniLookup ms q := by
  intro kvs
  induction kvs with
  | nil => intro ms q _; rfl
  | cons kv rest ih =>
      intro ms q h
      have hcons : iniSetAll ms (kv :: rest) = iniSetAll (iniSet ms kv.1 kv.2) rest := by
        simp [iniSetAll]
      rw [hcons, ih _ q (fun kv' h' => h kv' (by simp [h'])), iniLookup_iniSet,
        if_neg (h kv (by simp))]

theorem getExternalRepoConfigs_keys (repo : PGBackRestRepo) :
    ∀ kv ∈ getExternalRepoConfigs repo, ∃ s ∈ extSuffixes, kv.1 = repo.name ++ s := by
  intro kv hkv
  unfold getExternalRepoConfigs at hkv
  split at hkv
  · simp only [List.mem_cons, List.mem_singleton, List.not_mem_nil, or_false] at hkv
    rcases hkv with rfl | rfl
    · exact ⟨"-type", by simp [extSuffixes], rfl⟩
    · exact ⟨"-azure-container", by simp [extSuffixes], rfl⟩
  · split at hkv
    · simp only [List.mem_cons, List.mem_singleton, List.not_mem_nil, or_false] at hkv
      rcases hkv with rfl | rfl
      · exact ⟨"-type", by simp [extSuffixes], rfl⟩
      · exact ⟨"-gcs-bucket", by simp [extSuffixes], rfl⟩
    · split at hkv
      · simp only [List.mem_cons, List.mem_singleton, List.not_mem_nil, or_false] at hkv
        rcases hkv with rfl | rfl | rfl | rfl
        · exact ⟨"-type", by simp [extSuffixes], rfl⟩
        · exact ⟨"-s3-bucket", by simp [extSuffixes], rfl⟩
        · exact ⟨"-s3-endpoint", by simp [extSuffixes], rfl⟩
        · exact ⟨"-s3-region", by simp [extSuffixes], rfl⟩
      · simp at hkv

/-- A concatenation cannot equal a string whose last character differs from
the suffix's last character. -/
theorem append_ne_of_getLast_ne (x s t : String)
    (hne : s.data.getLast? ≠ t.data.getLast?) (hs : s.data ≠ []) : x ++ s ≠ t := by
  intro he
  apply hne
  have hd := congrArg (fun u : String => u.data.getLast?) he
  simp only [String.data_append, List.getLast?_append] at hd
  obtain ⟨c, hc⟩ := Option.isSome_iff_exists.mp (List.getLast?_isSome.mpr hs)
  rw [hc] at hd ⊢
  exact hd

theorem extSuffixes_ne_logpath : ∀ s ∈ extSuffixes, ∀ name : String,
    name ++ s ≠ "log-path" := by
  intro s hs name
  apply append_ne_of_getLast_ne
  · fin_cases hs <;> decide
  · fin_cases hs <;> decide

theorem path_suffix_eq_log (name : String) (h : name ++ "-path" = "log-path") :
    name = "log" := by
  have hd := congrArg String.data h
  rw [String.data_append,
    show ("log-path" : String).data = ("log" : String).data ++ ("-path" : String).data
      from rfl] at hd
  exact String.ext (List.append_cancel_right hd)

/-- All keys written for one repository in the repo-host global section
differ from `log-path`, provided the repository is not named `log`. -/
theorem repo_keys_ne_logpath (r : PGBackRestRepo) (hr : r.name ≠ "log") :
    r.name ++ "-path" ≠ "log-path" ∧
    ∀ kv ∈ getExternalRepoConfigs r, kv.1 ≠ "log-path" := by
  constructor
  · exact fun he => hr (path_suffix_eq_log r.name he)
  · intro kv hkv
    obtain ⟨s, hsmem, hkey⟩ := getExternalRepoConfigs_keys r kv hkv
    rw [hkey]
    exact extSuffixes_ne_logpath s hsmem r.name

/-- The repo-host repository fold writes `log-path` exactly once, from the
first volume-backed repository, provided no repository is named `log`. -/
theorem repoHost_fold_log_path :
    ∀ (repos : List PGBackRestRepo) (st : IniMultiSet × Bool),
      (∀ r ∈ repos, r.name ≠ "log") →
      iniLookup (repos.foldl repoHostRepoStep st).1 "log-path" =
        if st.2 then iniLookup st.1 "log-path"
        else
          match repos.find? (fun r => r.volume) with
          | some r => some [pgBackRestRepoLogPath r.name]
          | none => iniLookup st.1 "log-path" := by
  intro repos
  induction repos with
  | nil =>
      intro st _
      by_cases hst : st.2 <;> simp [List.foldl, List.find?, hst]
  | cons r rest ih =>
      intro st hnames
      have hr := repo_keys_ne_logpath r (hnames r (by simp))
      have hrest : ∀ r' ∈ rest, r'.name ≠ "log" := fun r' h' => hnames r' (by simp [h'])
      rw [List.foldl_cons, ih _ hrest]
      have hg : iniLookup (if r.volume then iniSet st.1 (r.name ++ "-path")
            (defaultRepo1Path ++ r.name)
          else iniSetAll (iniSet st.1 (r.name ++ "-path") (defaultRepo1Path ++ r.name))
            (getExternalRepoConfigs r)) "log-path" = iniLookup st.1 "log-path" := by
        by_cases hv : r.volume
        · simp only [if_pos hv]
          rw [iniLookup_iniSet, if_neg hr.1]
        · simp only [if_neg hv]
          rw [iniLookup_iniSetAll_ne _ _ _ hr.2, iniLookup_iniSet, if_neg hr.1]
      by_cases hflag : st.2
      · have hcond : ¬(¬st.2 = true ∧ r.volume = true) := by simp [hflag]
        simp only [repoHostRepoStep, if_neg hcond, hflag, if_true]
        simpa [hflag] using hg
      · by_cases hv : r.volume
        · have hcond : (¬st.2 = true ∧ r.volume = true) := by simp [hflag, hv]
          simp only [repoHostRepoStep, if_pos hcond]
          simp only [if_true, hflag, if_false]
          rw [iniLookup_iniSet, if_pos rfl]
          have hfind : (r :: rest).find? (fun r' => r'.volume) = some r := by
            simp [List.find?, hv]
          simp [hfind, hv]
        · have hcond : ¬(¬st.2 = true ∧ r.volume = true) := by simp [hv]
          simp only [repoHostRepoStep, if_neg hcond]
          have hfind : (r :: rest).find? (fun r' => r'.volume) =
              rest.find? (fun r' => r'.volume) := by
            simp [List.find?, hv]
          simp only [hflag, if_false, hfind]
          cases hf : rest.find? (fun r' => r'.volume) with
          | some r' => simp [hv]
          | none => simpa [hv] using hg

/-! ## C7: first-volume-wins log path -/

/-- Counterexample to C7 as stated: with no volume-backed repository in the
list a `log-path` key can still be emitted — either because the global
override map contains one (operator keys are applied last and win), or
because a cloud repository named `log` emits its path key `log-path`. -/
theorem log_path_counterexample :
    [s3RepoA].find? (fun r => r.volume) = none ∧
    iniLookup ((sectionLookup (populateRepoHostConfigurationMap "svc" "ns" "/pgdata" 5432
        [] [s3RepoA] [("log-path", "/custom")]) "global").getD []) "log-path" =
      some ["/custom"] ∧
    [s3RepoLog].find? (fun r => r.volume) = none ∧
    iniLookup ((sectionLookup (populateRepoHostConfigurationMap "svc" "ns" "/pgdata" 5432
        [] [s3RepoLog] []) "global").getD []) "log-path" =
      some ["/pgbackrest/log"] := by
  refine ⟨rfl, rfl, rfl, rfl⟩

/-- C7 (amended): in repo-host-role synthesis, provided no repository is
named `log` and the global override map has no `log-path` key, the global
section's `log-path` key equals the path derived from the first
volume-backed repository in input order, and no `log-path` key is emitted
when no repository is volume-backed. -/
theorem repoHost_log_path_first_volume (serviceName serviceNamespace pgdataDir : String)
    (pgPort : Int) (pgHosts : List String) (repos : List PGBackRestRepo)
    (globalConfig : List (String × String))
    (hnames : ∀ r ∈ repos, r.name ≠ "log")
    (hglobal : ∀ kv ∈ globalConfig, kv.1 ≠ "log-path") :
    iniLookup ((sectionLookup (populateRepoHostConfigurationMap serviceName serviceNamespace
        pgdataDir pgPort pgHosts repos globalConfig) "global").getD []) "log-path" =
      match repos.find? (fun r => r.volume) with
      | some r => some [pgBackRestRepoLogPath r.name]
      | none => none := by
  have hsec : sectionLookup (populateRepoHostConfigurationMap serviceName serviceNamespace
      pgdataDir pgPort pgHosts repos globalConfig) "global" =
      some (iniSetAll (repos.foldl repoHostRepoStep (([] : IniMultiSet), false)).1
        globalConfig) := rfl
  rw [hsec, Option.getD_some, iniLookup_iniSetAll_ne _ _ _ hglobal,
    repoHost_fold_log_path repos _ hnames]
  cases hf : repos.find? (fun r => r.volume) <;> simp [iniLookup]

/-- Witness for C7 at the claim's example `[S3("a"), Volume("b"),
Volume("c")]`: the log path derives from `b`, never `c`. -/
theorem repoHost_log_path_first_volume_witness :
    iniLookup ((sectionLookup (populateRepoHostConfigurationMap "svc" "ns" "/pgdata" 5432
        [] [s3RepoA, { name := "b", volume := true }, { name := "c", volume := true }]
        []) "global").getD []) "log-path" = some ["/pgbackrest/b/log"] := by
  have h := repoHost_log_path_first_volume "svc" "ns" "/pgdata" 5432 []
    [s3RepoA, { name := "b", volume := true }, { name := "c", volume := true }] []
    (by decide) (by simp)
  exact h.trans (by decide)

/-! ## C5: determinism of configuration synthesis across map orders -/

/-- Instantiating the per-run instance builder with the source's own
external-config construction recovers the embedded source builder. -/
theorem populatePGInstanceConfigurationMapRun_self
    (serviceName serviceNamespace repoHostName pgdataDir : String) (pgPort : Int)
    (repos : List PGBackRestRepo) (globalConfig : List (String × String)) :
    populatePGInstanceConfigurationMapRun getExternalRepoConfigs serviceName serviceNamespace
        repoHostName pgdataDir pgPort repos globalConfig =
      populatePGInstanceConfigurationMap serviceName serviceNamespace repoHostName pgdataDir
        pgPort repos globalConfig := rfl

/-- Instantiating the per-run repo-host builder with the source's own
external-config construction recovers the embedded source builder. -/
theorem populateRepoHostConfigurationMapRun_self
    (serviceName serviceNamespace pgdataDir : String) (pgPort : Int)
    (pgHosts : List String) (repos : List PGBackRestRepo)
    (globalConfig : List (String × String)) :
    populateRepoHostConfigurationMapRun getExternalRepoConfigs serviceName serviceNamespace
        pgdataDir pgPort pgHosts repos globalConfig =
      populateRepoHostConfigurationMap serviceName serviceNamespace pgdataDir pgPort pgHosts
        repos globalConfig := rfl

theorem getLast?_cons_or {α : Type} (a : α) (l : List α) :
    (a :: l).getLast? = l.getLast?.or (some a) := by
  rw [show a :: l = [a] ++ l from rfl, List.getLast?_append]
  rfl

/-- `Set`-folding a key/value list: the final value of a key is the last
one written for it; other keys keep their previous values. -/
theorem iniLookup_iniSetAll_filter :
    ∀ (kvs : List (String × String)) (ms : IniMultiSet) (q : String),
      iniLookup (iniSetAll ms kvs) q =
        match (kvs.filter fun kv => kv.1 = q).getLast? with
        | some kv => some [kv.2]
        | none => iniLookup ms q := by
  intro kvs
  induction kvs with
  | nil => intro ms q; simp [iniSetAll]
  | cons kv rest ih =>
      intro ms q
      have hcons : iniSetAll ms (kv :: rest) = iniSetAll (iniSet ms kv.1 kv.2) rest := by
        simp [iniSetAll]
      rw [hcons, ih]
      by_cases hk : kv.1 = q
      · rw [List.filter_cons_of_pos (by simpa using hk), getLast?_cons_or]
        cases hfl : (rest.filter fun kv' => kv'.1 = q).getLast? with
        | some kv' => rfl
        | none => simp [iniLookup_iniSet, hk]
      · rw [List.filter_cons_of_neg (by simpa using hk)]
        cases hfl : (rest.filter fun kv' => kv'.1 = q).getLast? with
        | some kv' => rfl
        | none => simp [iniLookup_iniSet, hk]

/-- A Go map has distinct keys, so at most one entry of an iteration order
matches a given key. -/
theorem filter_key_length_le_one :
    ∀ (kvs : List (String × String)) (q : String),
      (kvs.map Prod.fst).Nodup →
      (kvs.filter fun kv => kv.1 = q).length ≤ 1 := by
  intro kvs
  induction kvs with
  | nil => intro q _; simp
  | cons kv rest ih =>
      intro q hnd
      simp only [List.map_cons, List.nodup_cons] at hnd
      by_cases hk : kv.1 = q
      · rw [List.filter_cons_of_pos (by simpa using hk)]
        have hnil : (rest.filter fun kv' => kv'.1 = q) = [] := by
          rw [List.filter_eq_nil_iff]
          intro kv' hkv'
          simp only [decide_eq_true_eq]
          intro he
          exact hnd.1 (List.mem_map.mpr ⟨kv', hkv', he.trans hk.symm⟩)
        rw [hnil]
        simp
      · rw [List.filter_cons_of_neg (by simpa using hk)]
        exact ih q hnd.2

theorem perm_eq_of_length_le_one {α : Type} {l1 l2 : List α}
    (hp : l1.Perm l2) (hl : l1.length ≤ 1) : l1 = l2 := by
  cases l1 with
  | nil => exact (List.Perm.eq_nil hp.symm).symm
  | cons a l1' =>
      cases l1' with
      | nil => exact List.singleton_perm.mp hp
      | cons b l1'' => simp at hl

theorem string_append_left_cancel (a b c : String) (h : a ++ b = a ++ c) : b = c := by
  have hd := congrArg String.data h
  simp only [String.data_append] at hd
  exact String.ext (List.append_cancel_left hd)

theorem string_append_injective (a : String) : Function.Injective (fun b => a ++ b) :=
  fun b c h => string_append_left_cancel a b c h

/-- The map built by `getExternalRepoConfigs` has distinct keys. -/
theorem getExternalRepoConfigs_nodupKeys (repo : PGBackRestRepo) :
    ((getExternalRepoConfigs repo).map Prod.fst).Nodup := by
  unfold getExternalRepoConfigs
  split
  · show ((["-type", "-azure-container"] : List String).map fun s => repo.name ++ s).Nodup
    exact List.Nodup.map (string_append_injective repo.name) (by decide)
  · split
    · show ((["-type", "-gcs-bucket"] : List String).map fun s => repo.name ++ s).Nodup
      exact List.Nodup.map (string_append_injective repo.name) (by decide)
    · split
      · show ((["-type", "-s3-bucket", "-s3-endpoint", "-s3-region"] :
            List String).map fun s => repo.name ++ s).Nodup
        exact List.Nodup.map (string_append_injective repo.name) (by decide)
      · simp

theorem iniContentEq_iniSet {ms1 ms2 : IniMultiSet} (h : iniContentEq ms1 ms2)
    (k v : String) : iniContentEq (iniSet ms1 k v) (iniSet ms2 k v) := by
  intro q
  rw [iniLookup_iniSet, iniLookup_iniSet]
  by_cases hk : k = q <;> simp [hk, h q]

/-- `Set`-folding the same map in two different iteration orders from
content-equal sections yields content-equal sections. -/
theorem iniContentEq_iniSetAll_perm {ms1 ms2 : IniMultiSet}
    {kvs1 kvs2 : List (String × String)}
    (h : iniContentEq ms1 ms2) (hp : kvs1.Perm kvs2)
    (hnd : (kvs1.map Prod.fst).Nodup) :
    iniContentEq (iniSetAll ms1 kvs1) (iniSetAll ms2 kvs2) := by
  intro q
  rw [iniLookup_iniSetAll_filter, iniLookup_iniSetAll_filter]
  have hfeq : (kvs1.filter fun kv => kv.1 = q) = (kvs2.filter fun kv => kv.1 = q) :=
    perm_eq_of_length_le_one (hp.filter _) (filter_key_length_le_one kvs1 q hnd)
  rw [← hfeq]
  cases hfl : (kvs1.filter fun kv => kv.1 = q).getLast? <;> simp [h q]

/-- Two runs of the instance-role repository loop over the same repository
list, with possibly different iteration orders of each repository's
config map, produce content-equal sections. -/
theorem instance_fold_contentEq (repoHostName repoHostFQDN : String) :
    ∀ (repos : List PGBackRestRepo) (e1 e2 : PGBackRestRepo → List (String × String))
      (a b : IniMultiSet),
      (∀ r ∈ repos, (e1 r).Perm (getExternalRepoConfigs r)) →
      (∀ r ∈ repos, (e2 r).Perm (getExternalRepoConfigs r)) →
      iniContentEq a b →
      iniContentEq (repos.foldl (instanceRepoStepRun e1 repoHostName repoHostFQDN) a)
        (repos.foldl (instanceRepoStepRun e2 repoHostName repoHostFQDN) b) := by
  intro repos
  induction repos with
  | nil => intro e1 e2 a b _ _ h; exact h
  | cons r rest ih =>
      intro e1 e2 a b h1 h2 h
      rw [List.foldl_cons, List.foldl_cons]
      apply ih e1 e2 _ _ (fun r' hr' => h1 r' (by simp [hr']))
        (fun r' hr' => h2 r' (by simp [hr']))
      have hpath := iniContentEq_iniSet h (r.name ++ "-path") (defaultRepo1Path ++ r.name)
      have hext : iniContentEq
          (if r.volume then iniSet a (r.name ++ "-path") (defaultRepo1Path ++ r.name)
            else iniSetAll (iniSet a (r.name ++ "-path") (defaultRepo1Path ++ r.name)) (e1 r))
          (if r.volume then iniSet b (r.name ++ "-path") (defaultRepo1Path ++ r.name)
            else iniSetAll (iniSet b (r.name ++ "-path") (defaultRepo1Path ++ r.name)) (e2 r)) := by
        by_cases hv : r.volume
        · simp only [if_pos hv]
          exact hpath
        · simp only [if_neg hv]
          have hperm : (e1 r).Perm (e2 r) := (h1 r (by simp)).trans (h2 r (by simp)).symm
          have hnd : ((e1 r).map Prod.fst).Nodup :=
            (((h1 r (by simp)).map Prod.fst).nodup_iff).mpr (getExternalRepoConfigs_nodupKeys r)
          exact iniContentEq_iniSetAll_perm hpath hperm hnd
      unfold instanceRepoStepRun
      by_cases hcond : repoHostName ≠ "" ∧ r.volume = true
      · simp only [if_pos hcond]
        exact iniContentEq_iniSet (iniContentEq_iniSet (iniContentEq_iniSet
          (iniContentEq_iniSet (iniContentEq_iniSet (iniContentEq_iniSet hext _ _) _ _) _ _)
          _ _) _ _) _ _
      · simp only [if_neg hcond]
        exact hext

/-- One step of the repo-host repository loop, run twice from content-equal
sections with the same log-path flag: the results are content-equal and the
flags agree. -/
theorem repoHostRepoStepRun_contentEq (e1 e2 : PGBackRestRepo → List (String × String))
    (r : PGBackRestRepo) (ms1 ms2 : IniMultiSet) (fl : Bool)
    (hp1 : (e1 r).Perm (getExternalRepoConfigs r))
    (hp2 : (e2 r).Perm (getExternalRepoConfigs r))
    (h : iniContentEq ms1 ms2) :
    iniContentEq (repoHostRepoStepRun e1 (ms1, fl) r).1
        (repoHostRepoStepRun e2 (ms2, fl) r).1 ∧
      (repoHostRepoStepRun e1 (ms1, fl) r).2 = (repoHostRepoStepRun e2 (ms2, fl) r).2 := by
  have hpath := iniContentEq_iniSet h (r.name ++ "-path") (defaultRepo1Path ++ r.name)
  cases hv : r.volume with
  | false =>
      have hperm : (e1 r).Perm (e2 r) := hp1.trans hp2.symm
      have hnd : ((e1 r).map Prod.fst).Nodup :=
        ((hp1.map Prod.fst).nodup_iff).mpr (getExternalRepoConfigs_nodupKeys r)
      constructor
      · simp only [repoHostRepoStepRun, hv]
        simp only [Bool.false_eq_true, if_false, and_false, ite_false]
        exact iniContentEq_iniSetAll_perm hpath hperm hnd
      · simp [repoHostRepoStepRun, hv]
  | true =>
      cases fl with
      | false =>
          constructor
          · simp only [repoHostRepoStepRun, hv]
            simp only [ite_true, Bool.not_false, Bool.true_and, if_true]
            simp
            exact iniContentEq_iniSet hpath "log-path" (pgBackRestRepoLogPath r.name)
          · simp [repoHostRepoStepRun, hv]
      | true =>
          constructor
          · simp only [repoHostRepoStepRun, hv]
            simp
            exact hpath
          · simp [repoHostRepoStepRun, hv]

/-- Two runs of the repo-host repository loop over the same repository list
produce content-equal sections and identical log-path flags. -/
theorem repoHost_fold_contentEq :
    ∀ (repos : List PGBackRestRepo) (e1 e2 : PGBackRestRepo → List (String × String))
      (ms1 ms2 : IniMultiSet) (fl : Bool),
      (∀ r ∈ repos, (e1 r).Perm (getExternalRepoConfigs r)) →
      (∀ r ∈ repos, (e2 r).Perm (getExternalRepoConfigs r)) →
      iniContentEq ms1 ms2 →
      iniContentEq (repos.foldl (repoHostRepoStepRun e1) (ms1, fl)).1
          (repos.foldl (repoHostRepoStepRun e2) (ms2, fl)).1 ∧
        (repos.foldl (repoHostRepoStepRun e1) (ms1, fl)).2 =
          (repos.foldl (repoHostRepoStepRun e2) (ms2, fl)).2 := by
  intro repos
  induction repos with
  | nil => intro e1 e2 ms1 ms2 fl _ _ h; exact ⟨h, rfl⟩
  | cons r rest ih =>
      intro e1 e2 ms1 ms2 fl h1 h2 h
      obtain ⟨hs, hf⟩ := repoHostRepoStepRun_contentEq e1 e2 r ms1 ms2 fl
        (h1 r (by simp)) (h2 r (by simp)) h
      rw [List.foldl_cons, List.foldl_cons,
        show repoHostRepoStepRun e2 (ms2, fl) r =
            ((repoHostRepoStepRun e2 (ms2, fl) r).1,
              (repoHostRepoStepRun e1 (ms1, fl) r).2) from by rw [hf]]
      exact ih e1 e2 (repoHostRepoStepRun e1 (ms1, fl) r).1
        (repoHostRepoStepRun e2 (ms2, fl) r).1
        (repoHostRepoStepRun e1 (ms1, fl) r).2
        (fun r' hr' => h1 r' (by simp [hr']))
        (fun r' hr' => h2 r' (by simp [hr'])) hs

/-- Counterexample to C5 as stated: with the same fixed inputs (one
S3-backed repository, empty override map), a run that iterates the
repository's config map in reverse order produces different serialized
bytes than a run using the construction order, because fresh keys are
appended in iteration order and serialization preserves insertion order —
so two invocations are not byte-identical across Go's map-iteration
nondeterminism. -/
theorem configuration_synthesis_order_counterexample :
    (extRevSample s3RepoA).Perm (getExternalRepoConfigs s3RepoA) ∧
    iniSectionSetString (populatePGInstanceConfigurationMapRun extRevSample
        "svc" "ns" "" "/pgdata" 5432 [s3RepoA] []) ≠
      iniSectionSetString (populatePGInstanceConfigurationMapRun getExternalRepoConfigs
        "svc" "ns" "" "/pgdata" 5432 [s3RepoA] []) := by
  constructor
  · decide
  · decide

/-- C5 (amended): configuration synthesis is deterministic at the level of
configuration content.  For any fixed inputs, any two runs of the
instance-role and repo-host-role builders — whatever iteration orders Go's
`range` produces for the per-repository config maps and the global override
map in each run — yield global sections associating exactly the same values
to every key, and literally identical local stanzas.  (Byte-identical
serialized output additionally requires a fixed serialization order and is
refuted by the counterexample under the spec's insertion-order
serialization.) -/
theorem configuration_synthesis_content_deterministic :
    ∀ (extOrders1 extOrders2 : PGBackRestRepo → List (String × String))
      (g1 g2 globalConfig : List (String × String))
      (serviceName serviceNamespace repoHostName pgdataDir : String) (pgPort : Int)
      (repos : List PGBackRestRepo) (pgHosts : List String),
      (∀ r ∈ repos, (extOrders1 r).Perm (getExternalRepoConfigs r)) →
      (∀ r ∈ repos, (extOrders2 r).Perm (getExternalRepoConfigs r)) →
      g1.Perm globalConfig → g2.Perm globalConfig →
      (globalConfig.map Prod.fst).Nodup →
      (∀ q, iniLookup ((sectionLookup (populatePGInstanceConfigurationMapRun extOrders1
            serviceName serviceNamespace repoHostName pgdataDir pgPort repos g1)
            "global").getD []) q =
          iniLookup ((sectionLookup (populatePGInstanceConfigurationMapRun extOrders2
            serviceName serviceNamespace repoHostName pgdataDir pgPort repos g2)
            "global").getD []) q) ∧
      sectionLookup (populatePGInstanceConfigurationMapRun extOrders1 serviceName
          serviceNamespace repoHostName pgdataDir pgPort repos g1) defaultStanzaName =
        sectionLookup (populatePGInstanceConfigurationMapRun extOrders2 serviceName
          serviceNamespace repoHostName pgdataDir pgPort repos g2) defaultStanzaName ∧
      (∀ q, iniLookup ((sectionLookup (populateRepoHostConfigurationMapRun extOrders1
            serviceName serviceNamespace pgdataDir pgPort pgHosts repos g1)
            "global").getD []) q =
          iniLookup ((sectionLookup (populateRepoHostConfigurationMapRun extOrders2
            serviceName serviceNamespace pgdataDir pgPort pgHosts repos g2)
            "global").getD []) q) ∧
      sectionLookup (populateRepoHostConfigurationMapRun extOrders1 serviceName
          serviceNamespace pgdataDir pgPort pgHosts repos g1) defaultStanzaName =
        sectionLookup (populateRepoHostConfigurationMapRun extOrders2 serviceName
          serviceNamespace pgdataDir pgPort pgHosts repos g2) defaultStanzaName := by
  intro extOrders1 extOrders2 g1 g2 globalConfig serviceName serviceNamespace repoHostName
    pgdataDir pgPort repos pgHosts he1 he2 hg1 hg2 hgnd
  have hg : g1.Perm g2 := hg1.trans hg2.symm
  have hg1nd : (g1.map Prod.fst).Nodup := ((hg1.map Prod.fst).nodup_iff).mpr hgnd
  refine ⟨?_, rfl, ?_, rfl⟩
  · intro q
    have hfold := instance_fold_contentEq repoHostName
      (repoHostName ++ "-0." ++ serviceName ++ "." ++ serviceNamespace ++ ".svc." ++
        kubernetesClusterDomain) repos extOrders1 extOrders2
      (iniSet [] "log-path" pgBackRestPGDataLogPath)
      (iniSet [] "log-path" pgBackRestPGDataLogPath) he1 he2 (fun _ => rfl)
    exact iniContentEq_iniSetAll_perm hfold hg hg1nd q
  · intro q
    have hfold := (repoHost_fold_contentEq repos extOrders1 extOrders2 [] [] false
      he1 he2 (fun _ => rfl)).1
    exact iniContentEq_iniSetAll_perm hfold hg hg1nd q

/-- Witness for C5 (amended) at concrete inputs: a reverse-order run and a
construction-order run (the latter being the embedded source builder
itself) agree on the value of the `a-type` key. -/
theorem configuration_synthesis_content_deterministic_witness :
    iniLookup ((sectionLookup (populatePGInstanceConfigurationMapRun extRevSample
        "svc" "ns" "" "/pgdata" 5432 [s3RepoA] [("x", "y")]) "global").getD []) "a-type" =
      iniLookup ((sectionLookup (populatePGInstanceConfigurationMap
        "svc" "ns" "" "/pgdata" 5432 [s3RepoA] [("x", "y")]) "global").getD []) "a-type" := by
  have h := configuration_synthesis_content_deterministic extRevSample getExternalRepoConfigs
    [("x", "y")] [("x", "y")] [("x", "y")] "svc" "ns" "" "/pgdata" 5432 [s3RepoA] []
    (by decide) (fun r _ => List.Perm.refl _) (List.Perm.refl _) (List.Perm.refl _) (by decide)
  exact h.1 "a-type"


end IvoryOperator
